import Mathlib

/-!
Shallow embedding of the OpenHarmony `utils_memory` purgeable-memory
subsystem: the user-extended page table (UXPT) engine of
`src/libpurgeablemem/common/src/ux_page_table_c.c` (the `USE_UXPT > 0`
build) and the purgeable region manager of
`src/libpurgeablemem/c/src/purgeable_mem_c.c`.

Machine integers (`uint64_t`, `size_t`) are modelled as `Nat` with explicit
reduction modulo `2 ^ 64` wherever the C arithmetic can wrap.  The semantics
is sequential: a single thread runs with no concurrent kernel interference,
so every compare-and-swap succeeds on the value that was just loaded and
every `pthread_rwlock` operation succeeds.  The global `g_supportUxpt` flag
is threaded through as an explicit `sup : Bool` argument.
-/

/-- `2 ^ 64`, the modulus of `uint64_t` / `size_t` arithmetic. -/
def U64 : Nat := 2 ^ 64

/-- `PAGE_SHIFT` (from `pm_util.h`); data pages are `4096` bytes. -/
def PAGE_SHIFT : Nat := 12

/-- `PAGE_SIZE = 1 << PAGE_SHIFT`. -/
def PAGE_SIZE : Nat := 2 ^ PAGE_SHIFT

/-- `UXPTE_SIZE_SHIFT`: a pte is `8 = 2^3` bytes. -/
def UXPTE_SIZE_SHIFT : Nat := 3

/-- `UXPTE_PER_PAGE_SHIFT = PAGE_SHIFT - UXPTE_SIZE_SHIFT`. -/
def UXPTE_PER_PAGE_SHIFT : Nat := PAGE_SHIFT - UXPTE_SIZE_SHIFT

/-- `UXPTE_PER_PAGE = 1 << UXPTE_PER_PAGE_SHIFT`. -/
def UXPTE_PER_PAGE : Nat := 2 ^ UXPTE_PER_PAGE_SHIFT

/-- `VirtPageNo`: virtual page number of a virtual address. -/
def VirtPageNo (vaddr : Nat) : Nat := vaddr >>> PAGE_SHIFT

/-- `UxptePageNo`: page number inside the uxpte mapping. -/
def UxptePageNo (vaddr : Nat) : Nat := VirtPageNo vaddr >>> UXPTE_PER_PAGE_SHIFT

/-- `UxpteOffset`: pte offset of a virtual address inside its uxpte page. -/
def UxpteOffset (vaddr : Nat) : Nat := VirtPageNo vaddr &&& (UXPTE_PER_PAGE - 1)

/-- `UXPTE_PRESENT_BIT`. -/
def UXPTE_PRESENT_BIT : Nat := 1

/-- `UXPTE_PRESENT_MASK = (1 << UXPTE_PRESENT_BIT) - 1 = 1`. -/
def UXPTE_PRESENT_MASK : Nat := 2 ^ UXPTE_PRESENT_BIT - 1

/-- `UXPTE_REFCNT_ONE = 1 << UXPTE_PRESENT_BIT = 2`. -/
def UXPTE_REFCNT_ONE : Nat := 2 ^ UXPTE_PRESENT_BIT

/-- `UXPTE_UNDER_RECLAIM = (uxpte_t)(-UXPTE_REFCNT_ONE) = 2^64 - 2`. -/
def UXPTE_UNDER_RECLAIM : Nat := U64 - UXPTE_REFCNT_ONE

/-- `IsUxptePresent`: the low (present) bit of a pte. -/
def IsUxptePresent (pte : Nat) : Bool := pte &&& UXPTE_PRESENT_MASK != 0

/-- `IsUxpteUnderReclaim`. -/
def IsUxpteUnderReclaim (pte : Nat) : Bool := pte == UXPTE_UNDER_RECLAIM

/-- `RoundUp` (both C copies have the same body): the guard returns `val`
unchanged when `val + align` wraps around `2^64`. -/
def RoundUp (val align : Nat) : Nat :=
  if (val + align) % U64 < val ∨ (val + align) % U64 < align then val
  else if align = 0 then val
  else ((val + align - 1) / align) * align

/-- `RoundDown`: `val & ~(align - 1)`, with `~` the 64-bit complement, so the
mask is `2^64 - align` for `align ≥ 1`. -/
def RoundDown (val align : Nat) : Nat :=
  if align = 0 then val else val &&& (U64 - align)

/-- `GetIndexInUxpte`: `UxpteOffset(startAddr) + (VirtPageNo(currAddr) -
VirtPageNo(startAddr))` with `size_t` (mod `2^64`) subtraction and addition. -/
def GetIndexInUxpte (startAddr currAddr : Nat) : Nat :=
  (UxpteOffset startAddr +
    (VirtPageNo currAddr + (U64 - VirtPageNo startAddr % U64)) % U64) % U64

/-- The `PMState` error kinds of `pm_state_c.h` used by these two files
(`PMB_DESTORY_FAIL` is spelled as in the source). -/
inductive PMState where
  | PM_OK
  | PM_BUILDER_NULL
  | PM_MMAP_PURG_FAIL
  | PM_MMAP_UXPT_FAIL
  | PM_UNMAP_PURG_FAIL
  | PM_UNMAP_UXPT_FAIL
  | PM_UXPT_OUT_RANGE
  | PM_UXPT_NO_PRESENT
  | PM_LOCK_READ_FAIL
  | PM_UNLOCK_READ_FAIL
  | PM_LOCK_WRITE_FAIL
  | PM_UNLOCK_WRITE_FAIL
  | PM_DATA_PURGED
  | PM_DATA_NO_PURGED
  | PMB_BUILD_ALL_SUCC
  | PMB_BUILD_ALL_FAIL
  | PMB_DESTORY_FAIL
  deriving DecidableEq, Repr

/-- `enum UxpteOp`. -/
inductive UxpteOp where
  | UPT_GET
  | UPT_PUT
  | UPT_CLEAR
  | UPT_IS_PRESENT
  deriving DecidableEq, Repr

/-- `UxpteAdd` under the sequential (interference-free) semantics: the CAS of
the `do … while` always succeeds on the value just loaded, so the loop body
runs once.  The pair is (final pte value, whether `sched_yield` was called).
Note the source's guard order: the wrap-around `break` (`old + incNum < old`)
is tested before `IsUxpteUnderReclaim`, and `continue` inside a `do … while`
jumps to the loop condition, i.e. to the CAS itself, which here succeeds and
stores `newVal`. -/
def UxpteAdd (pte incNum : Nat) : Nat × Bool :=
  if (pte + incNum) % U64 < pte ∨ (pte + incNum) % U64 < incNum then (pte, false)
  else if U64 - 1 - pte < incNum then (pte, false)
  else if IsUxpteUnderReclaim pte then ((pte + incNum) % U64, true)
  else ((pte + incNum) % U64, false)

/-- `UxpteSub` under the sequential semantics: an unconditional wrapping
`old - decNum`; the CAS always succeeds. -/
def UxpteSub (pte decNum : Nat) : Nat := (pte + (U64 - decNum % U64)) % U64

/-- `UxpteClear_`: the CAS loop forces the pte to zero (it is a no-op when the
value is already zero, which also ends at zero). -/
def UxpteClearPte (_pte : Nat) : Nat := 0

/-- `struct UserExtendPageTable`; the pte array is a total map from array
index to pte value (every stored value is `< 2^64`). -/
structure UxPageTableStruct where
  dataAddr : Nat
  dataSize : Nat
  uxpte : Nat → Nat

/-- Point update of a pte array. -/
def UptWrite (f : Nat → Nat) (i v : Nat) : Nat → Nat :=
  fun j => if j = i then v else f j

/-- `GetUxpteAt` (the `upt == NULL` branch is handled by `UxpteOps`'s caller
model; all call sites pass a non-null table). -/
def GetUxpteAt (upt : UxPageTableStruct) (addr : Nat) : UxPageTableStruct :=
  let index := GetIndexInUxpte upt.dataAddr addr
  { upt with uxpte := UptWrite upt.uxpte index (UxpteAdd (upt.uxpte index) UXPTE_REFCNT_ONE).1 }

/-- `PutUxpteAt`. -/
def PutUxpteAt (upt : UxPageTableStruct) (addr : Nat) : UxPageTableStruct :=
  let index := GetIndexInUxpte upt.dataAddr addr
  { upt with uxpte := UptWrite upt.uxpte index (UxpteSub (upt.uxpte index) UXPTE_REFCNT_ONE) }

/-- `ClearUxpteAt`. -/
def ClearUxpteAt (upt : UxPageTableStruct) (addr : Nat) : UxPageTableStruct :=
  let index := GetIndexInUxpte upt.dataAddr addr
  { upt with uxpte := UptWrite upt.uxpte index (UxpteClearPte (upt.uxpte index)) }

/-- `IsPresentAt`. -/
def IsPresentAt (upt : UxPageTableStruct) (addr : Nat) : Bool :=
  IsUxptePresent (upt.uxpte (GetIndexInUxpte upt.dataAddr addr))

/-- The offsets visited by `for (off = start; off < end; off += PAGE_SIZE)`. -/
def PageOffsets (start endv : Nat) : List Nat :=
  (List.range ((endv - start + (PAGE_SIZE - 1)) / PAGE_SIZE)).map
    (fun k => start + k * PAGE_SIZE)

/-- The loop body of `UxpteOps` over the visited offsets; `UPT_IS_PRESENT`
returns early with `PM_UXPT_NO_PRESENT` on the first absent page. -/
def UxpteOpsGo (op : UxpteOp) : UxPageTableStruct → List Nat → UxPageTableStruct × PMState
  | upt, [] => (upt, .PM_OK)
  | upt, off :: rest =>
    match op with
    | .UPT_GET => UxpteOpsGo op (GetUxpteAt upt off) rest
    | .UPT_PUT => UxpteOpsGo op (PutUxpteAt upt off) rest
    | .UPT_CLEAR => UxpteOpsGo op (ClearUxpteAt upt off) rest
    | .UPT_IS_PRESENT =>
      if IsPresentAt upt off then UxpteOpsGo op upt rest
      else (upt, .PM_UXPT_NO_PRESENT)

/-- `UxpteOps`: null check, page-rounding of the range, bounds check against
the table, then the per-page loop. -/
def UxpteOps (upt : Option UxPageTableStruct) (addr len : Nat) (op : UxpteOp) :
    Option UxPageTableStruct × PMState :=
  match upt with
  | none => (none, .PM_BUILDER_NULL)
  | some u =>
    let start := RoundDown addr PAGE_SIZE
    let endv := RoundUp ((addr + len) % U64) PAGE_SIZE
    if start < u.dataAddr ∨ endv > (u.dataAddr + u.dataSize) % U64 then
      (some u, .PM_UXPT_OUT_RANGE)
    else
      let res := UxpteOpsGo op u (PageOffsets start endv)
      (some res.1, res.2)

/-- `UxpteGet` (`sup` is `g_supportUxpt`). -/
def UxpteGet (sup : Bool) (upt : Option UxPageTableStruct) (addr len : Nat) :
    Option UxPageTableStruct :=
  if !sup then upt else (UxpteOps upt addr len .UPT_GET).1

/-- `UxptePut`. -/
def UxptePut (sup : Bool) (upt : Option UxPageTableStruct) (addr len : Nat) :
    Option UxPageTableStruct :=
  if !sup then upt else (UxpteOps upt addr len .UPT_PUT).1

/-- `UxpteClear`. -/
def UxpteClear (sup : Bool) (upt : Option UxPageTableStruct) (addr len : Nat) :
    Option UxPageTableStruct :=
  if !sup then upt else (UxpteOps upt addr len .UPT_CLEAR).1

/-- `UxpteIsPresent`: `true` when unsupported, else `UxpteOps(...) == PM_OK`. -/
def UxpteIsPresent (sup : Bool) (upt : Option UxPageTableStruct) (addr len : Nat) : Bool :=
  if !sup then true else (UxpteOps upt addr len .UPT_IS_PRESENT).2 == .PM_OK

/-- Modelled from the spec: the kernel sets a descriptor's present (low) bit
when the corresponding data page is populated.  `MarkPte` is that per-pte
effect (the refcount bits are untouched). -/
def MarkPte (pte : Nat) : Nat := if pte % 2 = 1 then pte else pte + 1

/-- Modelled from the spec: present-bit update of the descriptor of one page. -/
def KernelSetPresentAt (upt : UxPageTableStruct) (addr : Nat) : UxPageTableStruct :=
  let index := GetIndexInUxpte upt.dataAddr addr
  { upt with uxpte := UptWrite upt.uxpte index (MarkPte (upt.uxpte index)) }

/-- Modelled from the spec: a store to the byte range `[addr, addr+len)`
populates every page it touches, and the kernel then sets the present bit of
each covered descriptor.  Pages outside the table's range have no descriptor
to update. -/
def KernelMarkPresent (sup : Bool) (upt : Option UxPageTableStruct) (addr len : Nat) :
    Option UxPageTableStruct :=
  if !sup then upt
  else
    match upt with
    | none => none
    | some u =>
      let start := RoundDown addr PAGE_SIZE
      let endv := RoundUp ((addr + len) % U64) PAGE_SIZE
      if start < u.dataAddr ∨ endv > (u.dataAddr + u.dataSize) % U64 then some u
      else some ((PageOffsets start endv).foldl KernelSetPresentAt u)

/-- A builder node's `fn` closed over its `para`: it reads the current first
`size` bytes of the buffer and either rewrites them or fails. -/
def BuilderFn : Type := List Nat → Option (List Nat)

/-- The single rwlock of a region as seen by the one modelled thread. -/
inductive LockSt where
  | free
  | rd
  | wr
  deriving DecidableEq, Repr

/-- `struct PurgMem`.  `data` is the byte content of the mapped range
(`RoundUp(dataSizeInput, PAGE_SIZE)` bytes for a region built by `create`);
`none` in `dataPtr` / `uxPageTable` models a NULL pointer, and an empty
`builder` list models a NULL builder chain. -/
structure PurgMem where
  dataPtr : Option Nat
  data : List Nat
  dataSizeInput : Nat
  builder : List BuilderFn
  uxPageTable : Option UxPageTableStruct
  rwlock : LockSt
  buildDataCount : Nat

/-- `IsPurgMemPtrValid`. -/
def IsPurgMemPtrValid (r : PurgMem) : Bool :=
  r.dataPtr.isSome && r.uxPageTable.isSome && !r.builder.isEmpty

/-- Modelled from the spec: `buildAll` of the builder chain
(`purgeable_mem_builder_c.c` is not among the sources) walks the chain from
head to tail invoking each `fn(dst, size, para)` in order; any `false` return
aborts and returns `false`, leaving the buffer as the completed prefix of the
chain left it. -/
def PurgMemBuilderBuildAll : List BuilderFn → List Nat → Nat → List Nat × Bool
  | [], buf, _ => (buf, true)
  | f :: rest, buf, size =>
    match f (List.take size buf) with
    | none => (buf, false)
    | some out => PurgMemBuilderBuildAll rest (out ++ List.drop size buf) size

/-- The specification's own `apply(chain, zeroes)` (stated from the spec's
words, to compare with the source-derived rebuild): the chain applied in
order to a whole buffer, failing if any node fails. -/
def ApplyChain : List BuilderFn → List Nat → Option (List Nat)
  | [], buf => some buf
  | f :: rest, buf => (f buf).bind (ApplyChain rest)

/-- `memset_s(dataPtr, RoundUp(n, PAGE_SIZE), 0, n)`: zeroes the first `n`
bytes of the buffer.  The call cannot fail here: the destination is non-null
and `n ≤ RoundUp(n, PAGE_SIZE)`. -/
def MemsetZero (buf : List Nat) (n : Nat) : List Nat :=
  List.replicate (min n buf.length) 0 ++ List.drop n buf

/-- `IsPurged`. -/
def IsPurged (sup : Bool) (r : PurgMem) : Bool :=
  if r.buildDataCount == 0 then true
  else !(UxpteIsPresent sup r.uxPageTable (r.dataPtr.getD 0) r.dataSizeInput)

/-- `PurgMemBuildData`: zero the first `dataSizeInput` bytes, rebuild through
the chain, and bump the counter on success.  The `memset_s` store populates
every covered page, so the kernel marks them present whether or not the
chain then succeeds. -/
def PurgMemBuildData (sup : Bool) (r : PurgMem) : PurgMem × Bool :=
  let zeroed := MemsetZero r.data r.dataSizeInput
  let upt1 := KernelMarkPresent sup r.uxPageTable (r.dataPtr.getD 0) r.dataSizeInput
  let res := PurgMemBuilderBuildAll r.builder zeroed r.dataSizeInput
  if res.2 then
    ({ r with data := res.1, uxPageTable := upt1, buildDataCount := r.buildDataCount + 1 }, true)
  else
    ({ r with data := res.1, uxPageTable := upt1 }, false)

/-- `TryBeginRead` (rwlock operations succeed in the sequential model, so the
`PM_LOCK_READ_FAIL` / `PM_UNLOCK_READ_FAIL` exits do not occur). -/
def TryBeginRead (sup : Bool) (r : PurgMem) : PurgMem × PMState :=
  let r1 := { r with rwlock := LockSt.rd }
  if !(IsPurged sup r1) then (r1, .PM_DATA_NO_PURGED)
  else ({ r1 with rwlock := LockSt.free }, .PM_DATA_PURGED)

/-- `BeginReadBuildData` (the write lock is taken and released; lock
operations succeed in the model). -/
def BeginReadBuildData (sup : Bool) (r : PurgMem) : PurgMem × PMState :=
  let r1 := { r with rwlock := LockSt.wr }
  let res := if IsPurged sup r1 then PurgMemBuildData sup r1 else (r1, false)
  let r2 := { res.1 with rwlock := LockSt.free }
  if res.2 then (r2, .PMB_BUILD_ALL_SUCC) else (r2, .PMB_BUILD_ALL_FAIL)

/-- The `while (true)` of `PurgMemBeginRead`, with explicit fuel (`none` means
the bound was exhausted before the loop exited). -/
def PurgMemBeginReadLoop (sup : Bool) : Nat → PurgMem → Option (PurgMem × Bool)
  | 0, _ => none
  | fuel + 1, r =>
    let t := TryBeginRead sup r
    if t.2 = .PM_DATA_NO_PURGED then some (t.1, true)
    else
      let b := BeginReadBuildData sup t.1
      if b.2 = .PMB_BUILD_ALL_SUCC then PurgMemBeginReadLoop sup fuel b.1
      else some (b.1, false)

/-- `PurgMemBeginRead`: validity check, `UxpteGet` pin, the retry loop, and
`UxptePut` on failure. -/
def PurgMemBeginRead (sup : Bool) (fuel : Nat) (r : PurgMem) : Option (PurgMem × Bool) :=
  if !(IsPurgMemPtrValid r) then some (r, false)
  else
    let r0 := { r with
      uxPageTable := UxpteGet sup r.uxPageTable (r.dataPtr.getD 0) r.dataSizeInput }
    match PurgMemBeginReadLoop sup fuel r0 with
    | none => none
    | some (r1, true) => some (r1, true)
    | some (r1, false) =>
      some ({ r1 with
        uxPageTable := UxptePut sup r1.uxPageTable (r1.dataPtr.getD 0) r1.dataSizeInput }, false)

/-- `PurgMemBeginWrite`: pin, take the write lock (which succeeds in the
model), rebuild under it when purged; on rebuild failure unlock, unpin and
fail.  Success returns still holding the write lock. -/
def PurgMemBeginWrite (sup : Bool) (r : PurgMem) : PurgMem × Bool :=
  if !(IsPurgMemPtrValid r) then (r, false)
  else
    let r0 := { r with
      uxPageTable := UxpteGet sup r.uxPageTable (r.dataPtr.getD 0) r.dataSizeInput }
    let r1 := { r0 with rwlock := LockSt.wr }
    if !(IsPurged sup r1) then (r1, true)
    else
      let res := PurgMemBuildData sup r1
      if res.2 then (res.1, true)
      else
        let r2 := { res.1 with rwlock := LockSt.free }
        ({ r2 with
          uxPageTable := UxptePut sup r2.uxPageTable (r2.dataPtr.getD 0) r2.dataSizeInput }, false)

/-- `EndAccessPurgMem` (= `PurgMemEndRead` = `PurgMemEndWrite`): unlock and
unpin. -/
def EndAccessPurgMem (sup : Bool) (r : PurgMem) : PurgMem :=
  if !(IsPurgMemPtrValid r) then r
  else
    let r1 := { r with rwlock := LockSt.free }
    { r1 with
      uxPageTable := UxptePut sup r1.uxPageTable (r1.dataPtr.getD 0) r1.dataSizeInput }

/-- `PurgMemAppendModify`: a NULL `func` is a no-op returning `true`; else the
function is applied to the buffer first, and only then is a builder node
created and linked.  `PurgMemBuilderCreate` / `PurgMemBuilderAppendBuilder`
are modelled from the spec (tail append); node allocation may fail, which the
oracle `createOk` decides. -/
def PurgMemAppendModify (_sup : Bool) (r : PurgMem) (func : Option BuilderFn)
    (createOk : Bool) : PurgMem × Bool :=
  match func with
  | none => (r, true)
  | some f =>
    match f (List.take r.dataSizeInput r.data) with
    | none => (r, false)
    | some out =>
      let r1 := { r with data := out ++ List.drop r.dataSizeInput r.data }
      if !createOk then (r1, false)
      else if r1.builder.isEmpty then ({ r1 with builder := [f] }, true)
      else ({ r1 with builder := r1.builder ++ [f] }, true)

/-- `PurgMemCreate`: reject `len == 0` and a NULL `func`; `PurgMemCreate_`
maps `RoundUp(len, PAGE_SIZE)` zero-filled bytes at `addr` (anonymous mmap),
allocates the table and initialises it over the mapped range — which clears
every covered descriptor of the pre-existing kernel pte state `pte0` — then
`PurgMemAppendModify` applies `func` once and links it; if that fails the
region is destroyed and NULL returned.  mmap/malloc/rwlock-init failures are
not modelled. -/
def PurgMemCreate (sup : Bool) (addr : Nat) (pte0 : Nat → Nat) (len : Nat)
    (func : Option BuilderFn) (createOk : Bool) : Option PurgMem :=
  if len = 0 then none
  else
    match func with
    | none => none
    | some f =>
      let size := RoundUp len PAGE_SIZE
      let upt0 : UxPageTableStruct := { dataAddr := addr, dataSize := size, uxpte := pte0 }
      let upt1 := UxpteClear sup (some upt0) addr size
      let r0 : PurgMem :=
        { dataPtr := some addr, data := List.replicate size 0, dataSizeInput := len,
          builder := [], uxPageTable := upt1, rwlock := LockSt.free, buildDataCount := 0 }
      let res := PurgMemAppendModify sup r0 (some f) createOk
      if res.2 then some res.1 else none

/-- Environment oracles for the fallible teardown steps of `PurgMemDestroy`:
`PurgMemBuilderDestroy` (modelled from the spec: walks the chain releasing
each node, reporting success or failure), `munmap` of the data range, and the
`munmap` inside `DeinitUxPageTable`. -/
structure DestroyEnv where
  builderDestroyOk : Bool
  unmapDataOk : Bool
  unmapUxptOk : Bool
  deriving DecidableEq, Repr

/-- `PurgMemDestroy`: NULL input returns `true`; rwlock destruction failure is
only logged; each of the three teardown steps is skipped when its pointer is
already NULL, sets the pointer to NULL on success, and records its error kind
on failure (`DeinitUxPageTable` succeeds without unmapping when `sup` is
false); the region structure is freed (result `none`) exactly when the
accumulated error is `PM_OK`. -/
def PurgMemDestroy (sup : Bool) (env : DestroyEnv) (purgObj : Option PurgMem) :
    Option PurgMem × Bool :=
  match purgObj with
  | none => (none, true)
  | some r =>
    let s1 : PurgMem × PMState :=
      if r.builder.isEmpty then (r, .PM_OK)
      else if env.builderDestroyOk then ({ r with builder := [] }, .PM_OK)
      else (r, .PMB_DESTORY_FAIL)
    let s2 : PurgMem × PMState :=
      match s1.1.dataPtr with
      | none => s1
      | some _ =>
        if env.unmapDataOk then ({ s1.1 with dataPtr := none }, s1.2)
        else (s1.1, .PM_UNMAP_PURG_FAIL)
    let s3 : PurgMem × PMState :=
      match s2.1.uxPageTable with
      | none => s2
      | some _ =>
        if !sup then ({ s2.1 with uxPageTable := none }, s2.2)
        else if env.unmapUxptOk then ({ s2.1 with uxPageTable := none }, s2.2)
        else (s2.1, .PM_UNMAP_UXPT_FAIL)
    if s3.2 = .PM_OK then (none, true) else (some s3.1, false)

/-- `PurgMemGetContent`. -/
def PurgMemGetContent (r : PurgMem) : Option Nat :=
  if !(IsPurgMemPtrValid r) then none else r.dataPtr

/-- `PurgMemGetContentSize`. -/
def PurgMemGetContentSize (r : PurgMem) : Nat :=
  if !(IsPurgMemPtrValid r) then 0 else r.dataSizeInput

/-- The `start` local of `UxpteOps`. -/
def UptStart (addr : Nat) : Nat := RoundDown addr PAGE_SIZE

/-- The `end` local of `UxpteOps`. -/
def UptEnd (addr len : Nat) : Nat := RoundUp ((addr + len) % U64) PAGE_SIZE

/-- The offsets `UxpteOps` visits for `(addr, len)`. -/
def UptOffsets (addr len : Nat) : List Nat := PageOffsets (UptStart addr) (UptEnd addr len)

/-- The bounds check of `UxpteOps` failing. -/
def UptOutRange (u : UxPageTableStruct) (addr len : Nat) : Prop :=
  UptStart addr < u.dataAddr ∨ UptEnd addr len > (u.dataAddr + u.dataSize) % U64

instance (u : UxPageTableStruct) (addr len : Nat) : Decidable (UptOutRange u addr len) := by
  unfold UptOutRange
  infer_instance

/-- Abstraction of the per-page table updates (`GetUxpteAt`, `PutUxpteAt`,
`ClearUxpteAt`, `KernelSetPresentAt`): apply `g` to the pte at the index of
`addr`. -/
def PteStep (g : Nat → Nat) (u : UxPageTableStruct) (addr : Nat) : UxPageTableStruct :=
  let index := GetIndexInUxpte u.dataAddr addr
  { u with uxpte := UptWrite u.uxpte index (g (u.uxpte index)) }

/-- The pte transform of a `get`. -/
def GPteAdd : Nat → Nat := fun p => (UxpteAdd p UXPTE_REFCNT_ONE).1

/-- The pte transform of a `put`. -/
def GPteSub : Nat → Nat := fun p => UxpteSub p UXPTE_REFCNT_ONE

/-- Concrete builder function for the rebuild-semantics claim: succeeds and
keeps the buffer as it finds it. -/
def c2fn : BuilderFn := fun l => some l

/-- A region whose mapped range is one page (`4096` bytes) but whose
`dataSizeInput` is one byte, with non-zero bytes after the first. -/
def c2region : PurgMem :=
  { dataPtr := some 4096, data := 7 :: 9 :: List.replicate 4094 5, dataSizeInput := 1,
    builder := [c2fn], uxPageTable := none, rwlock := LockSt.free, buildDataCount := 0 }

/-- A builder function that always fails. -/
def c3fail : BuilderFn := fun _ => none

/-- A one-page table whose descriptor holds the under-reclaim sentinel. -/
def c3sentinelTable : UxPageTableStruct :=
  { dataAddr := 4096, dataSize := 4096, uxpte := fun _ => UXPTE_UNDER_RECLAIM }

/-- A valid region over `c3sentinelTable` whose rebuild fails. -/
def c3badRegion : PurgMem :=
  { dataPtr := some 4096, data := [], dataSizeInput := 16, builder := [c3fail],
    uxPageTable := some c3sentinelTable, rwlock := LockSt.free, buildDataCount := 0 }

/-- A builder function that always fails (for the unpin witness). -/
def c3fail2 : BuilderFn := fun _ => none

/-- A one-page table with ordinary (zero) descriptors. -/
def c3okTable : UxPageTableStruct :=
  { dataAddr := 4096, dataSize := 4096, uxpte := fun _ => 0 }

/-- A valid region over `c3okTable` whose rebuild fails. -/
def c3okRegion : PurgMem :=
  { dataPtr := some 4096, data := [], dataSizeInput := 16, builder := [c3fail2],
    uxPageTable := some c3okTable, rwlock := LockSt.free, buildDataCount := 0 }

/-- A builder function for the `IsPurged` witness. -/
def c4fn : BuilderFn := fun l => some l

/-- A one-page table whose descriptor is zero (refcount 0, not present). -/
def c4table : UxPageTableStruct :=
  { dataAddr := 4096, dataSize := 4096, uxpte := fun _ => 0 }

/-- A built region (`buildDataCount = 1`) over `c4table`. -/
def c4region : PurgMem :=
  { dataPtr := some 4096, data := [], dataSizeInput := 16, builder := [c4fn],
    uxPageTable := some c4table, rwlock := LockSt.free, buildDataCount := 1 }

/-- A builder function writing `0x5A = 90` to every byte it is given. -/
def c5fn : BuilderFn := fun l => some (l.map (fun _ => 90))

/-- A builder function writing `90` to every byte (capability-off witness). -/
def c6fn : BuilderFn := fun l => some (l.map (fun _ => 90))

/-- A never-built region used with the capability probe off (its table
contents are never consulted). -/
def c6region : PurgMem :=
  { dataPtr := some 4096, data := [3, 4], dataSizeInput := 2, builder := [c6fn],
    uxPageTable := some { dataAddr := 0, dataSize := 0, uxpte := fun _ => 0 },
    rwlock := LockSt.free, buildDataCount := 0 }

/-- A one-page table with descriptors holding `4` (refcount 2, not present). -/
def c7table : UxPageTableStruct :=
  { dataAddr := 4096, dataSize := 4096, uxpte := fun _ => 4 }

/-- A builder function that increments every byte. -/
def c8fn : BuilderFn := fun l => some (l.map (fun b => b + 1))

/-- A region with an empty chain for the append-ordering witness. -/
def c8region : PurgMem :=
  { dataPtr := some 0, data := [1, 2, 3], dataSizeInput := 2, builder := [],
    uxPageTable := none, rwlock := LockSt.free, buildDataCount := 0 }

/-- A builder function for the destroy witness. -/
def c10fn : BuilderFn := fun l => some l

/-- A region whose builder-chain destroy will fail. -/
def c10region : PurgMem :=
  { dataPtr := some 0, data := [], dataSizeInput := 1, builder := [c10fn],
    uxPageTable := none, rwlock := LockSt.free, buildDataCount := 0 }

/-- Teardown oracles: builder destroy fails, both unmaps succeed. -/
def c10env : DestroyEnv := { builderDestroyOk := false, unmapDataOk := true, unmapUxptOk := true }

/-- What `c10region` becomes after that failed destroy. -/
def c10after : PurgMem := { c10region with dataPtr := none }

/-! ### Basic facts about the pte-level operations -/

theorem uptWrite_same (f : Nat → Nat) (i v : Nat) : UptWrite f i v i = v := by
  simp [UptWrite]

theorem uptWrite_ne (f : Nat → Nat) (i v j : Nat) (h : j ≠ i) : UptWrite f i v j = f j := by
  simp [UptWrite, h]

theorem getUxpteAt_eq_pteStep (u : UxPageTableStruct) (a : Nat) :
    GetUxpteAt u a = PteStep GPteAdd u a := rfl

theorem putUxpteAt_eq_pteStep (u : UxPageTableStruct) (a : Nat) :
    PutUxpteAt u a = PteStep GPteSub u a := rfl

theorem clearUxpteAt_eq_pteStep (u : UxPageTableStruct) (a : Nat) :
    ClearUxpteAt u a = PteStep UxpteClearPte u a := rfl

theorem kernelSetPresentAt_eq_pteStep (u : UxPageTableStruct) (a : Nat) :
    KernelSetPresentAt u a = PteStep MarkPte u a := rfl

theorem pteStep_dataAddr (g : Nat → Nat) (u : UxPageTableStruct) (a : Nat) :
    (PteStep g u a).dataAddr = u.dataAddr := rfl

theorem pteStep_dataSize (g : Nat → Nat) (u : UxPageTableStruct) (a : Nat) :
    (PteStep g u a).dataSize = u.dataSize := rfl

theorem foldl_pteStep_dataAddr (g : Nat → Nat) :
    ∀ (l : List Nat) (u : UxPageTableStruct), (l.foldl (PteStep g) u).dataAddr = u.dataAddr := by
  intro l
  induction l with
  | nil => intro u; rfl
  | cons a t ih => intro u; simpa [List.foldl_cons] using ih (PteStep g u a)

theorem foldl_pteStep_dataSize (g : Nat → Nat) :
    ∀ (l : List Nat) (u : UxPageTableStruct), (l.foldl (PteStep g) u).dataSize = u.dataSize := by
  intro l
  induction l with
  | nil => intro u; rfl
  | cons a t ih => intro u; simpa [List.foldl_cons] using ih (PteStep g u a)

theorem foldl_pteStep_uxpte (g : Nat → Nat) :
    ∀ (l : List Nat) (u : UxPageTableStruct),
      (l.map (GetIndexInUxpte u.dataAddr)).Nodup →
      ∀ i, (l.foldl (PteStep g) u).uxpte i =
        if i ∈ l.map (GetIndexInUxpte u.dataAddr) then g (u.uxpte i) else u.uxpte i := by
  intro l
  induction l with
  | nil => intro u _ i; simp
  | cons a t ih =>
    intro u hnd i
    rw [List.map_cons, List.nodup_cons] at hnd
    obtain ⟨hna, hnt⟩ := hnd
    rw [List.foldl_cons]
    have hda : (PteStep g u a).dataAddr = u.dataAddr := rfl
    have ih2 := ih (PteStep g u a)
    rw [hda] at ih2
    by_cases hi : i = GetIndexInUxpte u.dataAddr a
    · subst hi
      rw [ih2 hnt _, if_neg hna, List.map_cons]
      have : (PteStep g u a).uxpte (GetIndexInUxpte u.dataAddr a) =
          g (u.uxpte (GetIndexInUxpte u.dataAddr a)) := by
        simp [PteStep, UptWrite]
      rw [this, if_pos (List.mem_cons_self _ _)]
    · have hstep : (PteStep g u a).uxpte i = u.uxpte i := by
        simp [PteStep, UptWrite, hi]
      rw [ih2 hnt i, hstep, List.map_cons]
      by_cases hmem : i ∈ t.map (GetIndexInUxpte u.dataAddr)
      · rw [if_pos hmem, if_pos (List.mem_cons_of_mem _ hmem)]
      · rw [if_neg hmem, if_neg (by simp [hi, hmem])]

/-! ### The `UxpteOps` loop as folds -/

theorem uxpteOpsGo_get (l : List Nat) :
    ∀ u, UxpteOpsGo .UPT_GET u l = (l.foldl (PteStep GPteAdd) u, .PM_OK) := by
  induction l with
  | nil => intro u; rfl
  | cons a t ih => intro u; rw [List.foldl_cons, ← getUxpteAt_eq_pteStep]; exact ih _

theorem uxpteOpsGo_put (l : List Nat) :
    ∀ u, UxpteOpsGo .UPT_PUT u l = (l.foldl (PteStep GPteSub) u, .PM_OK) := by
  induction l with
  | nil => intro u; rfl
  | cons a t ih => intro u; rw [List.foldl_cons, ← putUxpteAt_eq_pteStep]; exact ih _

theorem uxpteOpsGo_clear (l : List Nat) :
    ∀ u, UxpteOpsGo .UPT_CLEAR u l = (l.foldl (PteStep UxpteClearPte) u, .PM_OK) := by
  induction l with
  | nil => intro u; rfl
  | cons a t ih => intro u; rw [List.foldl_cons, ← clearUxpteAt_eq_pteStep]; exact ih _

theorem uxpteOpsGo_present (l : List Nat) :
    ∀ u, UxpteOpsGo .UPT_IS_PRESENT u l =
      (u, if l.all (fun off => IsPresentAt u off) then .PM_OK else .PM_UXPT_NO_PRESENT) := by
  induction l with
  | nil => intro u; rfl
  | cons a t ih =>
    intro u
    show (if IsPresentAt u a then UxpteOpsGo .UPT_IS_PRESENT u t else (u, .PM_UXPT_NO_PRESENT)) = _
    by_cases h : IsPresentAt u a = true
    · rw [if_pos h, ih u, List.all_cons, h, Bool.true_and]
    · rw [if_neg h, List.all_cons]
      have : IsPresentAt u a = false := by
        cases hb : IsPresentAt u a
        · rfl
        · exact absurd hb h
      rw [this, Bool.false_and, if_neg (by simp)]

/-! ### Bounds and indices of the visited offsets -/

theorem mem_pageOffsets_bounds (s e off : Nat) (h : off ∈ PageOffsets s e) :
    s ≤ off ∧ off < e := by
  unfold PageOffsets at h
  obtain ⟨k, hk, rfl⟩ := List.mem_map.1 h
  rw [List.mem_range] at hk
  have hp : PAGE_SIZE = 4096 := rfl
  rw [hp] at hk ⊢
  have hd : ((e - s + (4096 - 1)) / 4096) * 4096 ≤ e - s + (4096 - 1) :=
    Nat.div_mul_le_self _ _
  constructor
  · omega
  · have hk1 : (k + 1) * 4096 ≤ ((e - s + (4096 - 1)) / 4096) * 4096 :=
      Nat.mul_le_mul_right _ hk
    omega

theorem virtPageNo_le (a b : Nat) (h : a ≤ b) : VirtPageNo a ≤ VirtPageNo b := by
  unfold VirtPageNo
  simp only [Nat.shiftRight_eq_div_pow]
  exact Nat.div_le_div_right h

theorem virtPageNo_eq_div (a : Nat) : VirtPageNo a = a / 4096 := by
  unfold VirtPageNo
  rw [Nat.shiftRight_eq_div_pow]
  norm_num [PAGE_SHIFT]

theorem uxpteOffset_le (a : Nat) : UxpteOffset a ≤ 511 := by
  unfold UxpteOffset
  exact Nat.and_le_right

theorem getIndexInUxpte_eq (dA c : Nat) (h1 : dA ≤ c) (h2 : c < U64) :
    GetIndexInUxpte dA c = UxpteOffset dA + (VirtPageNo c - VirtPageNo dA) := by
  have hva : VirtPageNo dA ≤ VirtPageNo c := virtPageNo_le _ _ h1
  have hvc : VirtPageNo c = c / 4096 := virtPageNo_eq_div c
  have hvd : VirtPageNo dA = dA / 4096 := virtPageNo_eq_div dA
  have hoff : UxpteOffset dA ≤ 511 := uxpteOffset_le dA
  have hU : U64 = 2 ^ 64 := rfl
  unfold GetIndexInUxpte
  rw [hU] at h2 ⊢
  omega

theorem pageOffsets_map_index (dA s e : Nat) (hds : dA ≤ s) (he : e ≤ U64) :
    (PageOffsets s e).map (GetIndexInUxpte dA) =
      (List.range ((e - s + (PAGE_SIZE - 1)) / PAGE_SIZE)).map
        (fun k => (UxpteOffset dA + (VirtPageNo s - VirtPageNo dA)) + k) := by
  unfold PageOffsets
  rw [List.map_map]
  refine List.map_congr_left ?_
  intro k hk
  rw [List.mem_range] at hk
  have hmem : s + k * PAGE_SIZE ∈ PageOffsets s e := by
    unfold PageOffsets
    exact List.mem_map.2 ⟨k, List.mem_range.2 hk, rfl⟩
  have hb := mem_pageOffsets_bounds s e _ hmem
  have hlt : s + k * PAGE_SIZE < U64 := lt_of_lt_of_le hb.2 he
  show GetIndexInUxpte dA (s + k * PAGE_SIZE) = _
  rw [getIndexInUxpte_eq dA _ (le_trans hds (Nat.le_add_right _ _)) hlt]
  have hp : PAGE_SIZE = 4096 := rfl
  have hvp : VirtPageNo (s + k * PAGE_SIZE) = VirtPageNo s + k := by
    rw [virtPageNo_eq_div, virtPageNo_eq_div, hp,
      Nat.add_mul_div_right _ _ (by norm_num : 0 < 4096)]
  rw [hvp]
  have hvs : VirtPageNo dA ≤ VirtPageNo s := virtPageNo_le _ _ hds
  omega

theorem pageOffsets_index_nodup (dA s e : Nat) (hds : dA ≤ s) (he : e ≤ U64) :
    ((PageOffsets s e).map (GetIndexInUxpte dA)).Nodup := by
  rw [pageOffsets_map_index dA s e hds he]
  exact List.Nodup.map (fun a b h => by omega) (List.nodup_range _)

/-! ### `UxpteOps` characterisation -/

theorem uxpteOps_none_eq (addr len : Nat) (op : UxpteOp) :
    UxpteOps none addr len op = (none, .PM_BUILDER_NULL) := rfl

theorem uxpteOps_outRange_eq (u : UxPageTableStruct) (addr len : Nat) (op : UxpteOp)
    (h : UptOutRange u addr len) :
    UxpteOps (some u) addr len op = (some u, .PM_UXPT_OUT_RANGE) := by
  unfold UptOutRange UptStart UptEnd at h
  simp only [UxpteOps, if_pos h]

theorem uxpteOps_get_eq (u : UxPageTableStruct) (addr len : Nat)
    (h : ¬ UptOutRange u addr len) :
    UxpteOps (some u) addr len .UPT_GET =
      (some ((UptOffsets addr len).foldl (PteStep GPteAdd) u), .PM_OK) := by
  unfold UptOutRange UptStart UptEnd at h
  simp only [UxpteOps, if_neg h, uxpteOpsGo_get, UptOffsets, UptStart, UptEnd]

theorem uxpteOps_put_eq (u : UxPageTableStruct) (addr len : Nat)
    (h : ¬ UptOutRange u addr len) :
    UxpteOps (some u) addr len .UPT_PUT =
      (some ((UptOffsets addr len).foldl (PteStep GPteSub) u), .PM_OK) := by
  unfold UptOutRange UptStart UptEnd at h
  simp only [UxpteOps, if_neg h, uxpteOpsGo_put, UptOffsets, UptStart, UptEnd]

theorem uxpteOps_clear_eq (u : UxPageTableStruct) (addr len : Nat)
    (h : ¬ UptOutRange u addr len) :
    UxpteOps (some u) addr len .UPT_CLEAR =
      (some ((UptOffsets addr len).foldl (PteStep UxpteClearPte) u), .PM_OK) := by
  unfold UptOutRange UptStart UptEnd at h
  simp only [UxpteOps, if_neg h, uxpteOpsGo_clear, UptOffsets, UptStart, UptEnd]

theorem uxpteOps_present_eq (u : UxPageTableStruct) (addr len : Nat)
    (h : ¬ UptOutRange u addr len) :
    UxpteOps (some u) addr len .UPT_IS_PRESENT =
      (some u, if (UptOffsets addr len).all (fun off => IsPresentAt u off)
        then .PM_OK else .PM_UXPT_NO_PRESENT) := by
  unfold UptOutRange UptStart UptEnd at h
  simp only [UxpteOps, if_neg h, uxpteOpsGo_present, UptOffsets, UptStart, UptEnd]

/-- From a passed bounds check: the table start is at or below the rounded
range and the rounded end stays below `2 ^ 64`. -/
theorem not_outRange_facts (u : UxPageTableStruct) (addr len : Nat)
    (h : ¬ UptOutRange u addr len) :
    u.dataAddr ≤ UptStart addr ∧ UptEnd addr len ≤ U64 := by
  unfold UptOutRange at h
  push_neg at h
  refine ⟨h.1, le_trans h.2 (le_of_lt (Nat.mod_lt _ (by norm_num [U64])))⟩

/-- Nodup of the descriptor indices visited for an in-range `(addr, len)`. -/
theorem uptOffsets_index_nodup (u : UxPageTableStruct) (addr len : Nat)
    (h : ¬ UptOutRange u addr len) :
    ((UptOffsets addr len).map (GetIndexInUxpte u.dataAddr)).Nodup := by
  obtain ⟨h1, h2⟩ := not_outRange_facts u addr len h
  exact pageOffsets_index_nodup _ _ _ h1 h2

/-! ### Arithmetic facts about single descriptors -/

theorem uxpteAdd_no_wrap (p : Nat) (h : p + UXPTE_REFCNT_ONE < U64) :
    UxpteAdd p UXPTE_REFCNT_ONE = (p + UXPTE_REFCNT_ONE, false) := by
  have hone : UXPTE_REFCNT_ONE = 2 := rfl
  have hU : U64 = 2 ^ 64 := rfl
  rw [hone] at h ⊢
  have hmod : (p + 2) % U64 = p + 2 := Nat.mod_eq_of_lt (by omega)
  have hrec : IsUxpteUnderReclaim p = false := by
    have : p ≠ UXPTE_UNDER_RECLAIM := by
      have : UXPTE_UNDER_RECLAIM = 2 ^ 64 - 2 := rfl
      omega
    simp [IsUxpteUnderReclaim, this]
  unfold UxpteAdd
  rw [hmod, hrec]
  rw [if_neg (by omega), if_neg (by rw [hU] at h ⊢; omega)]
  simp

/-- Getting (no wrap), marking present, then putting leaves the refcount
(the bits above the present bit) exactly where it started. -/
theorem refcnt_roundtrip (p : Nat) (h : p + UXPTE_REFCNT_ONE < U64) :
    UxpteSub (MarkPte (p + UXPTE_REFCNT_ONE)) UXPTE_REFCNT_ONE / 2 = p / 2 := by
  have hone : UXPTE_REFCNT_ONE = 2 := rfl
  have hU : U64 = 2 ^ 64 := rfl
  rw [hone] at h ⊢
  unfold UxpteSub MarkPte
  rw [hU] at h ⊢
  split
  · omega
  · omega

/-- Marking present only, without a pin, also preserves the refcount. -/
theorem refcnt_mark (p : Nat) : MarkPte p / 2 = p / 2 := by
  unfold MarkPte
  split <;> omega

theorem markPte_present (p : Nat) : IsUxptePresent (MarkPte p) = true := by
  have hm : UXPTE_PRESENT_MASK = 1 := rfl
  simp only [IsUxptePresent, hm, Nat.and_one_is_mod, MarkPte]
  split
  · next hodd => simp [hodd]
  · next heven => simp; omega

/-! ### Supported-build wrappers, rewritten through the folds -/

theorem uxpteGet_eq (u : UxPageTableStruct) (addr len : Nat) (h : ¬ UptOutRange u addr len) :
    UxpteGet true (some u) addr len =
      some ((UptOffsets addr len).foldl (PteStep GPteAdd) u) := by
  simp [UxpteGet, uxpteOps_get_eq u addr len h]

theorem uxptePut_eq (u : UxPageTableStruct) (addr len : Nat) (h : ¬ UptOutRange u addr len) :
    UxptePut true (some u) addr len =
      some ((UptOffsets addr len).foldl (PteStep GPteSub) u) := by
  simp [UxptePut, uxpteOps_put_eq u addr len h]

theorem uxpteClear_eq (u : UxPageTableStruct) (addr len : Nat) (h : ¬ UptOutRange u addr len) :
    UxpteClear true (some u) addr len =
      some ((UptOffsets addr len).foldl (PteStep UxpteClearPte) u) := by
  simp [UxpteClear, uxpteOps_clear_eq u addr len h]

theorem uxpteIsPresent_eq (u : UxPageTableStruct) (addr len : Nat)
    (h : ¬ UptOutRange u addr len) :
    UxpteIsPresent true (some u) addr len =
      (UptOffsets addr len).all (fun off => IsPresentAt u off) := by
  simp only [UxpteIsPresent, uxpteOps_present_eq u addr len h, Bool.not_eq_true]
  by_cases hall : (UptOffsets addr len).all (fun off => IsPresentAt u off) = true
  · simp [hall]
  · rw [Bool.not_eq_true] at hall
    simp [hall]

theorem kernelSetPresentAt_funeq : KernelSetPresentAt = PteStep MarkPte := rfl

theorem kernelMarkPresent_eq (u : UxPageTableStruct) (addr len : Nat)
    (h : ¬ UptOutRange u addr len) :
    KernelMarkPresent true (some u) addr len =
      some ((UptOffsets addr len).foldl (PteStep MarkPte) u) := by
  unfold UptOutRange UptStart UptEnd at h
  simp only [KernelMarkPresent, Bool.not_true, Bool.false_eq_true, if_false, if_neg h,
    kernelSetPresentAt_funeq, UptOffsets, UptStart, UptEnd]

theorem outRange_congr (u1 u2 : UxPageTableStruct) (addr len : Nat)
    (hda : u1.dataAddr = u2.dataAddr) (hds : u1.dataSize = u2.dataSize) :
    UptOutRange u1 addr len ↔ UptOutRange u2 addr len := by
  unfold UptOutRange
  rw [hda, hds]

/-- After marking all covered descriptors, each reports present. -/
theorem all_present_after_mark (u : UxPageTableStruct) (addr len : Nat)
    (h : ¬ UptOutRange u addr len) :
    ((UptOffsets addr len).all
      (fun off => IsPresentAt ((UptOffsets addr len).foldl (PteStep MarkPte) u) off)) = true := by
  rw [List.all_eq_true]
  intro off hoff
  have hnd := uptOffsets_index_nodup u addr len h
  have hda := foldl_pteStep_dataAddr MarkPte (UptOffsets addr len) u
  unfold IsPresentAt
  rw [hda]
  rw [foldl_pteStep_uxpte MarkPte (UptOffsets addr len) u hnd]
  rw [if_pos (List.mem_map_of_mem _ hoff)]
  exact markPte_present _

/-! ### Small state-shape lemmas for the session protocol -/

theorem isPurged_set_rwlock (sup : Bool) (r : PurgMem) (x : LockSt) :
    IsPurged sup { r with rwlock := x } = IsPurged sup r := rfl

theorem tryBeginRead_purged (sup : Bool) (r : PurgMem) (h : IsPurged sup r = true) :
    TryBeginRead sup r = ({ r with rwlock := LockSt.free }, .PM_DATA_PURGED) := by
  simp only [TryBeginRead, isPurged_set_rwlock, h]
  rfl

theorem tryBeginRead_not_purged (sup : Bool) (r : PurgMem) (h : IsPurged sup r = false) :
    TryBeginRead sup r = ({ r with rwlock := LockSt.rd }, .PM_DATA_NO_PURGED) := by
  simp only [TryBeginRead, isPurged_set_rwlock, h]
  rfl

theorem purgMemBuildData_shape (sup : Bool) (r : PurgMem) :
    PurgMemBuildData sup r =
      (let res := PurgMemBuilderBuildAll r.builder (MemsetZero r.data r.dataSizeInput)
        r.dataSizeInput
      ({ r with
          data := res.1,
          uxPageTable := KernelMarkPresent sup r.uxPageTable (r.dataPtr.getD 0) r.dataSizeInput,
          buildDataCount := if res.2 then r.buildDataCount + 1 else r.buildDataCount },
        res.2)) := by
  unfold PurgMemBuildData
  by_cases h : (PurgMemBuilderBuildAll r.builder (MemsetZero r.data r.dataSizeInput)
      r.dataSizeInput).2 = true
  · simp [h]
  · rw [Bool.not_eq_true] at h
    simp [h]

/-- A successful rebuild of a region with an in-range table leaves the region
not purged: the counter is positive and every covered page is present. -/
theorem isPurged_after_buildData_succ (r : PurgMem) (u : UxPageTableStruct)
    (hu : r.uxPageTable = some u)
    (hr : ¬ UptOutRange u (r.dataPtr.getD 0) r.dataSizeInput)
    (hsucc : (PurgMemBuildData true r).2 = true) :
    IsPurged true (PurgMemBuildData true r).1 = false := by
  rw [purgMemBuildData_shape] at hsucc ⊢
  simp only at hsucc
  simp only [hsucc, if_pos]
  set addr := r.dataPtr.getD 0 with haddr
  set n := r.dataSizeInput with hn
  have hmark : KernelMarkPresent true r.uxPageTable addr n =
      some ((UptOffsets addr n).foldl (PteStep MarkPte) u) := by
    rw [hu]; exact kernelMarkPresent_eq u addr n hr
  set u2 := (UptOffsets addr n).foldl (PteStep MarkPte) u with hu2
  unfold IsPurged
  simp only [hmark]
  have hu2a : u2.dataAddr = u.dataAddr := foldl_pteStep_dataAddr _ _ _
  have hu2s : u2.dataSize = u.dataSize := foldl_pteStep_dataSize _ _ _
  have hr2 : ¬ UptOutRange u2 addr n := fun hc => hr ((outRange_congr u2 u addr n hu2a hu2s).1 hc)
  rw [uxpteIsPresent_eq u2 addr n hr2]
  have hall : ((UptOffsets addr n).all (fun off => IsPresentAt u2 off)) = true := by
    have := all_present_after_mark u addr n hr
    exact this
  rw [hall]
  simp

/-- `BeginReadBuildData` on a purged region: take the write lock, rebuild,
release the lock, and report whether the rebuild succeeded. -/
theorem beginReadBuildData_purged (sup : Bool) (r : PurgMem) (hp : IsPurged sup r = true) :
    BeginReadBuildData sup r =
      ({ (PurgMemBuildData sup { r with rwlock := LockSt.wr }).1 with rwlock := LockSt.free },
        if (PurgMemBuildData sup { r with rwlock := LockSt.wr }).2 then
          PMState.PMB_BUILD_ALL_SUCC else PMState.PMB_BUILD_ALL_FAIL) := by
  have hp2 : IsPurged sup { r with rwlock := LockSt.wr } = true := hp
  simp only [BeginReadBuildData, hp2, if_true]
  split <;> rfl

/-- One unfolding of the `beginRead` retry loop. -/
theorem beginReadLoop_unfold (sup : Bool) (fuel : Nat) (r : PurgMem) :
    PurgMemBeginReadLoop sup (fuel + 1) r =
      (let t := TryBeginRead sup r
      if t.2 = .PM_DATA_NO_PURGED then some (t.1, true)
      else
        let b := BeginReadBuildData sup t.1
        if b.2 = .PMB_BUILD_ALL_SUCC then PurgMemBeginReadLoop sup fuel b.1
        else some (b.1, false)) := rfl

/-- The retry loop of `beginRead` can only report failure by failing the one
rebuild it attempts on entry (given that a successful rebuild leaves the
region not purged, so after a success the next iteration exits with
success). -/
theorem beginReadLoop_false_shape (fuel : Nat) (r r1 : PurgMem)
    (hside : (PurgMemBuildData true { r with rwlock := LockSt.wr }).2 = true →
      IsPurged true (PurgMemBuildData true { r with rwlock := LockSt.wr }).1 = false)
    (h : PurgMemBeginReadLoop true fuel r = some (r1, false)) :
    IsPurged true r = true ∧
      (PurgMemBuildData true { r with rwlock := LockSt.wr }).2 = false ∧
      r1 = { (PurgMemBuildData true { r with rwlock := LockSt.wr }).1 with
        rwlock := LockSt.free } := by
  match fuel with
  | 0 => simp [PurgMemBeginReadLoop] at h
  | fuel + 1 =>
    by_cases hp : IsPurged true r = true
    · rw [beginReadLoop_unfold, tryBeginRead_purged true r hp] at h
      simp only [reduceCtorEq, if_false] at h
      have hpf : IsPurged true ({ r with rwlock := LockSt.free }) = true := hp
      rw [beginReadBuildData_purged true _ hpf] at h
      by_cases hres : (PurgMemBuildData true { r with rwlock := LockSt.wr }).2 = true
      · simp only [hres, if_true, reduceCtorEq, if_pos] at h
        have hnp := hside hres
        match fuel with
        | 0 => simp [PurgMemBeginReadLoop] at h
        | fuel + 1 =>
          have hnp2 : IsPurged true ({ (PurgMemBuildData true
              { r with rwlock := LockSt.wr }).1 with rwlock := LockSt.free }) = false := hnp
          rw [beginReadLoop_unfold, tryBeginRead_not_purged true _ hnp2] at h
          simp at h
      · rw [Bool.not_eq_true] at hres
        simp only [hres, Bool.false_eq_true, if_false, reduceCtorEq, Option.some_inj] at h
        exact ⟨hp, hres, (congrArg Prod.fst h).symm⟩
    · rw [Bool.not_eq_true] at hp
      rw [beginReadLoop_unfold, tryBeginRead_not_purged true r hp] at h
      simp at h

/-- `beginRead` on a region that passes the validity check: pin, loop, unpin
on failure. -/
theorem purgMemBeginRead_valid_eq (sup : Bool) (fuel : Nat) (r : PurgMem)
    (hv : IsPurgMemPtrValid r = true) :
    PurgMemBeginRead sup fuel r =
      (match PurgMemBeginReadLoop sup fuel
          ({ r with uxPageTable :=
            UxpteGet sup r.uxPageTable (r.dataPtr.getD 0) r.dataSizeInput }) with
        | none => none
        | some (r1, true) => some (r1, true)
        | some (r1, false) =>
          some ({ r1 with uxPageTable :=
                    UxptePut sup r1.uxPageTable (r1.dataPtr.getD 0) r1.dataSizeInput }, false)) := by
  simp only [PurgMemBeginRead, hv, Bool.not_true, Bool.false_eq_true, if_false]

/-- Pinning, marking present, and unpinning the same in-range set of
descriptors preserves every refcount, provided no pin was skipped. -/
theorem refcnt_preserved_pipeline (u : UxPageTableStruct) (addr n : Nat)
    (hr : ¬ UptOutRange u addr n)
    (hskip : ∀ off ∈ UptOffsets addr n,
      u.uxpte (GetIndexInUxpte u.dataAddr off) + UXPTE_REFCNT_ONE < U64)
    (i : Nat) :
    ((UptOffsets addr n).foldl (PteStep GPteSub)
      ((UptOffsets addr n).foldl (PteStep MarkPte)
        ((UptOffsets addr n).foldl (PteStep GPteAdd) u))).uxpte i / 2 = u.uxpte i / 2 := by
  have hnd := uptOffsets_index_nodup u addr n hr
  set offs := UptOffsets addr n with hoffs
  set u1 := offs.foldl (PteStep GPteAdd) u with hu1
  set u2 := offs.foldl (PteStep MarkPte) u1 with hu2
  have hda1 : u1.dataAddr = u.dataAddr := foldl_pteStep_dataAddr _ _ _
  have hda2 : u2.dataAddr = u.dataAddr := by
    rw [hu2, foldl_pteStep_dataAddr, hda1]
  have hnd1 : (offs.map (GetIndexInUxpte u1.dataAddr)).Nodup := by rw [hda1]; exact hnd
  have hnd2 : (offs.map (GetIndexInUxpte u2.dataAddr)).Nodup := by rw [hda2]; exact hnd
  have e1 := foldl_pteStep_uxpte GPteAdd offs u hnd i
  have e2 := foldl_pteStep_uxpte MarkPte offs u1 hnd1 i
  have e3 := foldl_pteStep_uxpte GPteSub offs u2 hnd2 i
  rw [hda1] at e2
  rw [hda2] at e3
  rw [e3, e2, e1]
  by_cases hmem : i ∈ offs.map (GetIndexInUxpte u.dataAddr)
  · rw [if_pos hmem, if_pos hmem, if_pos hmem]
    obtain ⟨off, hoff, rfl⟩ := List.mem_map.1 hmem
    have hb := hskip off hoff
    have : GPteAdd (u.uxpte (GetIndexInUxpte u.dataAddr off)) =
        u.uxpte (GetIndexInUxpte u.dataAddr off) + UXPTE_REFCNT_ONE := by
      unfold GPteAdd
      rw [uxpteAdd_no_wrap _ hb]
    rw [this]
    exact refcnt_roundtrip _ hb
  · rw [if_neg hmem, if_neg hmem, if_neg hmem]

/-- The table after a failed `beginRead`/`beginWrite` on a pinned region:
descriptors go through pin, present-marking, unpin. -/
theorem begin_failure_table (r : PurgMem) (u : UxPageTableStruct)
    (hu : r.uxPageTable = some u)
    (hr : ¬ UptOutRange u (r.dataPtr.getD 0) r.dataSizeInput) :
    UxpteGet true r.uxPageTable (r.dataPtr.getD 0) r.dataSizeInput =
      some ((UptOffsets (r.dataPtr.getD 0) r.dataSizeInput).foldl (PteStep GPteAdd) u) := by
  rw [hu]
  exact uxpteGet_eq u _ _ hr

theorem purgMemBuildData_uxPageTable (sup : Bool) (r : PurgMem) :
    (PurgMemBuildData sup r).1.uxPageTable =
      KernelMarkPresent sup r.uxPageTable (r.dataPtr.getD 0) r.dataSizeInput := by
  rw [purgMemBuildData_shape]

theorem purgMemBuildData_dataPtr (sup : Bool) (r : PurgMem) :
    (PurgMemBuildData sup r).1.dataPtr = r.dataPtr := by
  rw [purgMemBuildData_shape]

theorem purgMemBuildData_dataSizeInput (sup : Bool) (r : PurgMem) :
    (PurgMemBuildData sup r).1.dataSizeInput = r.dataSizeInput := by
  rw [purgMemBuildData_shape]

/-- A failed `beginRead` on a valid region with an in-range table whose
covered descriptors all admit the pin: the read lock is released and every
descriptor's refcount is back where it started. -/
theorem beginRead_failure_refcnt (r : PurgMem) (u : UxPageTableStruct) (fuel : Nat)
    (hv : IsPurgMemPtrValid r = true)
    (hu : r.uxPageTable = some u)
    (hr : ¬ UptOutRange u (r.dataPtr.getD 0) r.dataSizeInput)
    (hskip : ∀ off ∈ UptOffsets (r.dataPtr.getD 0) r.dataSizeInput,
      u.uxpte (GetIndexInUxpte u.dataAddr off) + UXPTE_REFCNT_ONE < U64)
    (r1 : PurgMem) (h : PurgMemBeginRead true fuel r = some (r1, false)) :
    r1.rwlock = LockSt.free ∧ ∃ u1, r1.uxPageTable = some u1 ∧
      ∀ i, u1.uxpte i / 2 = u.uxpte i / 2 := by
  set addr := r.dataPtr.getD 0 with haddr
  set n := r.dataSizeInput with hn
  set offs := UptOffsets addr n with hoffs
  set uA := offs.foldl (PteStep GPteAdd) u with huA
  set uB := offs.foldl (PteStep MarkPte) uA with huB
  set uC := offs.foldl (PteStep GPteSub) uB with huC
  have hdaA : uA.dataAddr = u.dataAddr := foldl_pteStep_dataAddr _ _ _
  have hdsA : uA.dataSize = u.dataSize := foldl_pteStep_dataSize _ _ _
  have hrA : ¬ UptOutRange uA addr n := fun hc => hr ((outRange_congr uA u addr n hdaA hdsA).1 hc)
  have hdaB : uB.dataAddr = u.dataAddr := by rw [huB, foldl_pteStep_dataAddr, hdaA]
  have hdsB : uB.dataSize = u.dataSize := by rw [huB, foldl_pteStep_dataSize, hdsA]
  have hrB : ¬ UptOutRange uB addr n := fun hc => hr ((outRange_congr uB u addr n hdaB hdsB).1 hc)
  rw [purgMemBeginRead_valid_eq true fuel r hv] at h
  rw [show UxpteGet true r.uxPageTable addr n = some uA from by
    rw [hu]; exact uxpteGet_eq u addr n hr] at h
  cases hloop : PurgMemBeginReadLoop true fuel { r with uxPageTable := some uA } with
  | none => rw [hloop] at h; simp at h
  | some xb =>
    rw [hloop] at h
    obtain ⟨x, b⟩ := xb
    cases b with
    | true => simp at h
    | false =>
      have hside : (PurgMemBuildData true
            { r with uxPageTable := some uA, rwlock := LockSt.wr }).2 = true →
          IsPurged true (PurgMemBuildData true
            { r with uxPageTable := some uA, rwlock := LockSt.wr }).1 = false := by
        intro hsucc
        exact isPurged_after_buildData_succ _ uA rfl hrA hsucc
      obtain ⟨hpur, hfail, hx⟩ :=
        beginReadLoop_false_shape fuel { r with uxPageTable := some uA } x hside hloop
      subst hx
      rw [Option.some_inj] at h
      have hX := congrArg Prod.fst h
      simp only at hX
      have hBupt : (PurgMemBuildData true
          { r with uxPageTable := some uA, rwlock := LockSt.wr }).1.uxPageTable = some uB := by
        rw [purgMemBuildData_uxPageTable]
        exact kernelMarkPresent_eq uA addr n hrA
      have hBdp : (PurgMemBuildData true
          { r with uxPageTable := some uA, rwlock := LockSt.wr }).1.dataPtr = r.dataPtr := by
        rw [purgMemBuildData_dataPtr]
      have hBsz : (PurgMemBuildData true
          { r with uxPageTable := some uA, rwlock := LockSt.wr }).1.dataSizeInput = n := by
        rw [purgMemBuildData_dataSizeInput]
      rw [← hX]
      refine ⟨rfl, uC, ?_, fun i => ?_⟩
      · show UxptePut true
          (PurgMemBuildData true
            { r with uxPageTable := some uA, rwlock := LockSt.wr }).1.uxPageTable
          ((PurgMemBuildData true
            { r with uxPageTable := some uA, rwlock := LockSt.wr }).1.dataPtr.getD 0)
          (PurgMemBuildData true
            { r with uxPageTable := some uA, rwlock := LockSt.wr }).1.dataSizeInput = some uC
        rw [hBupt, hBdp, hBsz]
        exact uxptePut_eq uB addr n hrB
      · exact refcnt_preserved_pipeline u addr n hr hskip i

/-- A failed `beginWrite` on a valid region with an in-range table whose
covered descriptors all admit the pin: the write lock is released and every
descriptor's refcount is back where it started. -/
theorem beginWrite_failure_refcnt (r : PurgMem) (u : UxPageTableStruct)
    (hv : IsPurgMemPtrValid r = true)
    (hu : r.uxPageTable = some u)
    (hr : ¬ UptOutRange u (r.dataPtr.getD 0) r.dataSizeInput)
    (hskip : ∀ off ∈ UptOffsets (r.dataPtr.getD 0) r.dataSizeInput,
      u.uxpte (GetIndexInUxpte u.dataAddr off) + UXPTE_REFCNT_ONE < U64)
    (r1 : PurgMem) (h : PurgMemBeginWrite true r = (r1, false)) :
    r1.rwlock = LockSt.free ∧ ∃ u1, r1.uxPageTable = some u1 ∧
      ∀ i, u1.uxpte i / 2 = u.uxpte i / 2 := by
  set addr := r.dataPtr.getD 0 with haddr
  set n := r.dataSizeInput with hn
  set offs := UptOffsets addr n with hoffs
  set uA := offs.foldl (PteStep GPteAdd) u with huA
  set uB := offs.foldl (PteStep MarkPte) uA with huB
  set uC := offs.foldl (PteStep GPteSub) uB with huC
  have hdaA : uA.dataAddr = u.dataAddr := foldl_pteStep_dataAddr _ _ _
  have hdsA : uA.dataSize = u.dataSize := foldl_pteStep_dataSize _ _ _
  have hrA : ¬ UptOutRange uA addr n := fun hc => hr ((outRange_congr uA u addr n hdaA hdsA).1 hc)
  have hdaB : uB.dataAddr = u.dataAddr := by rw [huB, foldl_pteStep_dataAddr, hdaA]
  have hdsB : uB.dataSize = u.dataSize := by rw [huB, foldl_pteStep_dataSize, hdsA]
  have hrB : ¬ UptOutRange uB addr n := fun hc => hr ((outRange_congr uB u addr n hdaB hdsB).1 hc)
  simp only [PurgMemBeginWrite, hv, Bool.not_true, Bool.false_eq_true, if_false] at h
  rw [show UxpteGet true r.uxPageTable addr n = some uA from by
    rw [hu]; exact uxpteGet_eq u addr n hr] at h
  split at h
  · exact absurd (congrArg Prod.snd h) (by simp)
  · split at h
    · exact absurd (congrArg Prod.snd h) (by simp)
    · have hX := congrArg Prod.fst h
      simp only at hX
      have hBupt : (PurgMemBuildData true
          { r with uxPageTable := some uA, rwlock := LockSt.wr }).1.uxPageTable = some uB := by
        rw [purgMemBuildData_uxPageTable]
        exact kernelMarkPresent_eq uA addr n hrA
      have hBdp : (PurgMemBuildData true
          { r with uxPageTable := some uA, rwlock := LockSt.wr }).1.dataPtr = r.dataPtr := by
        rw [purgMemBuildData_dataPtr]
      have hBsz : (PurgMemBuildData true
          { r with uxPageTable := some uA, rwlock := LockSt.wr }).1.dataSizeInput = n := by
        rw [purgMemBuildData_dataSizeInput]
      rw [← hX]
      refine ⟨rfl, uC, ?_, fun i => ?_⟩
      · show UxptePut true
          (PurgMemBuildData true
            { r with uxPageTable := some uA, rwlock := LockSt.wr }).1.uxPageTable
          ((PurgMemBuildData true
            { r with uxPageTable := some uA, rwlock := LockSt.wr }).1.dataPtr.getD 0)
          (PurgMemBuildData true
            { r with uxPageTable := some uA, rwlock := LockSt.wr }).1.dataSizeInput = some uC
        rw [hBupt, hBdp, hBsz]
        exact uxptePut_eq uB addr n hrB
      · exact refcnt_preserved_pipeline u addr n hr hskip i

/-! ### The claims -/

/-- C1: for `get` the under-reclaim sentinel is claimed to make `UxpteAdd`
yield and retry until the kernel writes a fresh value.  In the code the
wrap-around guard fires first on the sentinel (`2^64 - 2 + 2` wraps), so the
add breaks out immediately: the pte is left unchanged, `sched_yield` is never
reached, and the page is skipped exactly like an overflow — for the refcount
unit `2` the yield branch is dead for every descriptor value. -/
theorem c1_uxpteAdd_sentinel_skipped :
    UxpteAdd UXPTE_UNDER_RECLAIM UXPTE_REFCNT_ONE = (UXPTE_UNDER_RECLAIM, false) ∧
    ∀ p : Fin U64, (UxpteAdd p.val UXPTE_REFCNT_ONE).2 = false := by
  constructor
  · decide
  · intro p
    obtain ⟨pv, hlt⟩ := p
    show (UxpteAdd pv UXPTE_REFCNT_ONE).2 = false
    unfold UxpteAdd
    split
    · rfl
    · split
      · rfl
      · split
        · next h1 h2 h3 =>
          exfalso
          rw [show IsUxpteUnderReclaim pv = (pv == UXPTE_UNDER_RECLAIM) from rfl,
            beq_iff_eq] at h3
          have he : UXPTE_UNDER_RECLAIM = 2 ^ 64 - 2 := rfl
          have hone : UXPTE_REFCNT_ONE = 2 := rfl
          have hU : U64 = 2 ^ 64 := rfl
          rw [he] at h3
          rw [hone, hU, h3] at h2
          omega
        · rfl

/-- C3 (amended): whenever `beginRead` or `beginWrite` returns `false` on a
valid region, the matching `put` has already run on the same pinned
`(data, sizeInput)` range and no lock remains held; every covered descriptor
whose pin was not skipped (its value plus the refcount unit stays below
`2^64`) ends with its refcount exactly restored. -/
theorem c3_begin_failure_unpins (r : PurgMem) (u : UxPageTableStruct) (fuel : Nat)
    (hv : IsPurgMemPtrValid r = true)
    (hu : r.uxPageTable = some u)
    (hr : ¬ UptOutRange u (r.dataPtr.getD 0) r.dataSizeInput)
    (hskip : ∀ off ∈ UptOffsets (r.dataPtr.getD 0) r.dataSizeInput,
      u.uxpte (GetIndexInUxpte u.dataAddr off) + UXPTE_REFCNT_ONE < U64) :
    (∀ r1, PurgMemBeginRead true fuel r = some (r1, false) →
      r1.rwlock = LockSt.free ∧ ∃ u1, r1.uxPageTable = some u1 ∧
        ∀ i, u1.uxpte i / 2 = u.uxpte i / 2) ∧
    (∀ r1, PurgMemBeginWrite true r = (r1, false) →
      r1.rwlock = LockSt.free ∧ ∃ u1, r1.uxPageTable = some u1 ∧
        ∀ i, u1.uxpte i / 2 = u.uxpte i / 2) :=
  ⟨fun r1 h => beginRead_failure_refcnt r u fuel hv hu hr hskip r1 h,
    fun r1 h => beginWrite_failure_refcnt r u hv hu hr hskip r1 h⟩

/-- C3, witness: a concrete failing `beginRead` on a one-page region with
ordinary (zero) descriptors, instantiating the amended claim. -/
theorem c3_begin_failure_unpins_witness :
    (IsPurgMemPtrValid c3okRegion = true ∧
      ¬ UptOutRange c3okTable (c3okRegion.dataPtr.getD 0) c3okRegion.dataSizeInput ∧
      (∀ off ∈ UptOffsets (c3okRegion.dataPtr.getD 0) c3okRegion.dataSizeInput,
        c3okTable.uxpte (GetIndexInUxpte c3okTable.dataAddr off) + UXPTE_REFCNT_ONE < U64)) ∧
    (∀ r1, PurgMemBeginRead true 2 c3okRegion = some (r1, false) →
      r1.rwlock = LockSt.free ∧ ∃ u1, r1.uxPageTable = some u1 ∧
        ∀ i, u1.uxpte i / 2 = c3okTable.uxpte i / 2) :=
  ⟨⟨by decide, by decide, by decide⟩,
    (c3_begin_failure_unpins c3okRegion c3okTable 2 (by decide) rfl (by decide) (by decide)).1⟩

/-- C3, counterexample to the claim as stated: with one covered descriptor at
the under-reclaim sentinel, the pin is skipped but the unpin still
decrements, so the failed `beginRead` leaves a net refcount change of one
unit (the descriptor moves from the sentinel `2^64 - 2` through present-bit
marking to `2^64 - 1` and is then decremented to `2^64 - 3`, a net refcount
change of `-1`). -/
theorem c3_counterexample :
    (PurgMemBeginRead true 1 c3badRegion).map
        (fun x => (x.1.uxPageTable.elim 0 (fun u1 => u1.uxpte 1), x.2)) =
      some (U64 - 3, false) ∧
    (U64 - 3) / 2 ≠ UXPTE_UNDER_RECLAIM / 2 := by
  constructor
  · decide
  · decide

/-- C9 (amended): `put`'s `UxpteSub` is an unconditional wrapping subtraction
with no underflow guard and no under-reclaim check: an unmatched put wraps
`0` to `2^64 - 2` (the sentinel itself) and decrements even a sentinel
descriptor; but because the refcount unit is `2` and `2^64` is even, the
present (low) bit is always preserved — a put can never flip it. -/
theorem c9_uxpteSub_unconditional_wrap :
    UxpteSub 0 UXPTE_REFCNT_ONE = UXPTE_UNDER_RECLAIM ∧
    UxpteSub UXPTE_UNDER_RECLAIM UXPTE_REFCNT_ONE = U64 - 4 ∧
    (∀ p : Fin U64, UXPTE_REFCNT_ONE ≤ p.val →
      UxpteSub p.val UXPTE_REFCNT_ONE = p.val - UXPTE_REFCNT_ONE) ∧
    (∀ p : Fin U64, IsUxptePresent (UxpteSub p.val UXPTE_REFCNT_ONE) = IsUxptePresent p.val) := by
  refine ⟨by decide, by decide, fun p hp => ?_, fun p => ?_⟩
  · obtain ⟨pv, hlt⟩ := p
    have hone : UXPTE_REFCNT_ONE = 2 := rfl
    have hU : U64 = 2 ^ 64 := rfl
    rw [hone] at hp
    have hp2 : 2 ≤ pv := hp
    show UxpteSub pv UXPTE_REFCNT_ONE = pv - UXPTE_REFCNT_ONE
    unfold UxpteSub
    rw [hone, hU]
    rw [hU] at hlt
    omega
  · obtain ⟨pv, hlt⟩ := p
    have hone : UXPTE_REFCNT_ONE = 2 := rfl
    have hm : UXPTE_PRESENT_MASK = 1 := rfl
    have hU : U64 = 2 ^ 64 := rfl
    show IsUxptePresent (UxpteSub pv UXPTE_REFCNT_ONE) = IsUxptePresent pv
    simp only [UxpteSub, IsUxptePresent, hone, hm, Nat.and_one_is_mod]
    rw [hU]
    rw [hU] at hlt
    have : (pv + (2 ^ 64 - 2 % 2 ^ 64)) % 2 ^ 64 % 2 = pv % 2 := by omega
    rw [this]

/-- C9, witness: the wrapping subtraction at the concrete descriptor value
`5`. -/
theorem c9_uxpteSub_unconditional_wrap_witness :
    UXPTE_REFCNT_ONE ≤ (5 : Nat) ∧ UxpteSub 5 UXPTE_REFCNT_ONE = 5 - UXPTE_REFCNT_ONE :=
  ⟨by decide, c9_uxpteSub_unconditional_wrap.2.2.1 ⟨5, by decide⟩ (by decide)⟩

/-- C9, counterexample to "a put can flip the present bit": subtracting the
refcount unit `2` modulo the even number `2^64` preserves parity, so the
present bit of every descriptor value is unchanged (the claim's own wrap
example `0 ↦ 2^64 - 2` keeps it clear). -/
theorem c9_counterexample :
    UxpteSub 0 UXPTE_REFCNT_ONE = UXPTE_UNDER_RECLAIM ∧
    ∀ p : Fin U64, IsUxptePresent (UxpteSub p.val UXPTE_REFCNT_ONE) = IsUxptePresent p.val := by
  constructor
  · decide
  · intro p
    obtain ⟨pv, hlt⟩ := p
    have hone : UXPTE_REFCNT_ONE = 2 := rfl
    have hm : UXPTE_PRESENT_MASK = 1 := rfl
    have hU : U64 = 2 ^ 64 := rfl
    show IsUxptePresent (UxpteSub pv UXPTE_REFCNT_ONE) = IsUxptePresent pv
    simp only [UxpteSub, IsUxptePresent, hone, hm, Nat.and_one_is_mod]
    rw [hU]
    rw [hU] at hlt
    have : (pv + (2 ^ 64 - 2 % 2 ^ 64)) % 2 ^ 64 % 2 = pv % 2 := by omega
    rw [this]

theorem purgMemBuildData_snd (sup : Bool) (r : PurgMem) :
    (PurgMemBuildData sup r).2 =
      (PurgMemBuilderBuildAll r.builder (MemsetZero r.data r.dataSizeInput)
        r.dataSizeInput).2 := by
  rw [purgMemBuildData_shape]

theorem purgMemBuildData_data (sup : Bool) (r : PurgMem) :
    (PurgMemBuildData sup r).1.data =
      (PurgMemBuilderBuildAll r.builder (MemsetZero r.data r.dataSizeInput)
        r.dataSizeInput).1 := by
  rw [purgMemBuildData_shape]

theorem purgMemBuildData_count (sup : Bool) (r : PurgMem) :
    (PurgMemBuildData sup r).1.buildDataCount =
      (if (PurgMemBuilderBuildAll r.builder (MemsetZero r.data r.dataSizeInput)
          r.dataSizeInput).2 then r.buildDataCount + 1 else r.buildDataCount) := by
  rw [purgMemBuildData_shape]

theorem purgMemBuildData_builder (sup : Bool) (r : PurgMem) :
    (PurgMemBuildData sup r).1.builder = r.builder := by
  rw [purgMemBuildData_shape]

theorem purgMemBuildData_rwlock (sup : Bool) (r : PurgMem) :
    (PurgMemBuildData sup r).1.rwlock = r.rwlock := by
  rw [purgMemBuildData_shape]

/-- The chain walk touches only the first `size` bytes: the suffix of the
buffer past `size` survives, and on success the window is exactly the chain
applied to the starting window. -/
theorem buildAll_spec (n : Nat) :
    ∀ (chain : List BuilderFn),
      (∀ f ∈ chain, ∀ l out, f l = some out → out.length = l.length) →
      ∀ buf : List Nat, n ≤ buf.length →
        List.drop n (PurgMemBuilderBuildAll chain buf n).1 = List.drop n buf ∧
        ((PurgMemBuilderBuildAll chain buf n).2 = true →
          ∃ out, ApplyChain chain (List.take n buf) = some out ∧
            (PurgMemBuilderBuildAll chain buf n).1 = out ++ List.drop n buf) := by
  intro chain
  induction chain with
  | nil =>
    intro _ buf _
    exact ⟨rfl, fun _ => ⟨List.take n buf, rfl, (List.take_append_drop n buf).symm⟩⟩
  | cons f t ih =>
    intro hlen buf hn
    have hlf : ∀ l out, f l = some out → out.length = l.length :=
      hlen f (List.mem_cons_self f t)
    have hlt : ∀ g ∈ t, ∀ l out, g l = some out → out.length = l.length :=
      fun g hg => hlen g (List.mem_cons_of_mem f hg)
    cases hf : f (List.take n buf) with
    | none =>
      rw [show PurgMemBuilderBuildAll (f :: t) buf n =
        (match f (List.take n buf) with
        | none => (buf, false)
        | some out => PurgMemBuilderBuildAll t (out ++ List.drop n buf) n) from rfl, hf]
      exact ⟨rfl, fun hfalse => by simp at hfalse⟩
    | some out =>
      rw [show PurgMemBuilderBuildAll (f :: t) buf n =
        (match f (List.take n buf) with
        | none => (buf, false)
        | some out => PurgMemBuilderBuildAll t (out ++ List.drop n buf) n) from rfl, hf]
      have hlo : out.length = n := by
        rw [hlf _ _ hf, List.length_take]
        omega
      have hn2 : n ≤ (out ++ List.drop n buf).length := by
        rw [List.length_append, hlo]
        omega
      have hdl : List.drop n (out ++ List.drop n buf) = List.drop n buf := by
        have := List.drop_left out (List.drop n buf)
        rw [hlo] at this
        exact this
      have htl : List.take n (out ++ List.drop n buf) = out := by
        have := List.take_left out (List.drop n buf)
        rw [hlo] at this
        exact this
      obtain ⟨ihd, ihs⟩ := ih hlt (out ++ List.drop n buf) hn2
      refine ⟨by rw [ihd, hdl], fun hs => ?_⟩
      obtain ⟨out2, hchain, hres⟩ := ihs hs
      rw [htl] at hchain
      refine ⟨out2, ?_, by rw [hres, hdl]⟩
      rw [show ApplyChain (f :: t) (List.take n buf) =
        (f (List.take n buf)).bind (ApplyChain t) from rfl, hf]
      exact hchain

theorem memsetZero_length (buf : List Nat) (n : Nat) (h : n ≤ buf.length) :
    (MemsetZero buf n).length = buf.length := by
  unfold MemsetZero
  rw [List.length_append, List.length_replicate, List.length_drop]
  omega

theorem memsetZero_take (buf : List Nat) (n : Nat) (h : n ≤ buf.length) :
    List.take n (MemsetZero buf n) = List.replicate n 0 := by
  unfold MemsetZero
  rw [Nat.min_eq_left h]
  have := List.take_left (List.replicate n (0 : Nat)) (List.drop n buf)
  rw [List.length_replicate] at this
  exact this

theorem memsetZero_drop (buf : List Nat) (n : Nat) (h : n ≤ buf.length) :
    List.drop n (MemsetZero buf n) = List.drop n buf := by
  unfold MemsetZero
  rw [Nat.min_eq_left h]
  have := List.drop_left (List.replicate n (0 : Nat)) (List.drop n buf)
  rw [List.length_replicate] at this
  exact this

/-- C2 (amended): a rebuild zeroes only the first `dataSizeInput` bytes of
the mapped buffer (`memset_s` is called with count `dataSizeInput`; the
rounded size is only the `destMax` bound) and then runs the chain over that
window, so after a successful rebuild the first `dataSizeInput` bytes equal
the chain applied to a `dataSizeInput`-byte zero buffer while every byte
past `dataSizeInput` keeps its previous value; a successful rebuild
increments `buildDataCount` by exactly one and a failed one leaves it
unchanged. -/
theorem c2_purgMemBuildData_spec (sup : Bool) (r : PurgMem)
    (hlen : ∀ f ∈ r.builder, ∀ l out, f l = some out → out.length = l.length)
    (hn : r.dataSizeInput ≤ r.data.length) :
    (∀ r1, PurgMemBuildData sup r = (r1, true) →
      ∃ out, ApplyChain r.builder (List.replicate r.dataSizeInput 0) = some out ∧
        r1.data = out ++ List.drop r.dataSizeInput r.data ∧
        r1.buildDataCount = r.buildDataCount + 1) ∧
    (∀ r1, PurgMemBuildData sup r = (r1, false) →
      r1.buildDataCount = r.buildDataCount ∧
      List.drop r.dataSizeInput r1.data = List.drop r.dataSizeInput r.data) := by
  have hml : r.dataSizeInput ≤ (MemsetZero r.data r.dataSizeInput).length := by
    rw [memsetZero_length _ _ hn]
    exact hn
  obtain ⟨hdrop, hsucc⟩ := buildAll_spec r.dataSizeInput r.builder hlen
    (MemsetZero r.data r.dataSizeInput) hml
  constructor
  · intro r1 h
    have hs : (PurgMemBuildData sup r).2 = true := by rw [h]
    have hs2 := hs
    rw [purgMemBuildData_snd] at hs2
    obtain ⟨out, hchain, hres⟩ := hsucc hs2
    rw [memsetZero_take _ _ hn] at hchain
    have hr1 : (PurgMemBuildData sup r).1 = r1 := by rw [h]
    refine ⟨out, hchain, ?_, ?_⟩
    · rw [← hr1, purgMemBuildData_data, hres, memsetZero_drop _ _ hn]
    · rw [← hr1, purgMemBuildData_count, hs2, if_pos rfl]
  · intro r1 h
    have hs : (PurgMemBuildData sup r).2 = false := by rw [h]
    have hs2 := hs
    rw [purgMemBuildData_snd] at hs2
    have hr1 : (PurgMemBuildData sup r).1 = r1 := by rw [h]
    constructor
    · rw [← hr1, purgMemBuildData_count, hs2]
      simp
    · rw [← hr1, purgMemBuildData_data, hdrop, memsetZero_drop _ _ hn]

/-- C2, witness: the amended rebuild semantics instantiated at a concrete
one-page region with a one-byte window. -/
theorem c2_purgMemBuildData_spec_witness :
    ((∀ f ∈ c2region.builder, ∀ l out, f l = some out → out.length = l.length) ∧
      c2region.dataSizeInput ≤ c2region.data.length) ∧
    ((∀ r1, PurgMemBuildData false c2region = (r1, true) →
      ∃ out, ApplyChain c2region.builder (List.replicate c2region.dataSizeInput 0) = some out ∧
        r1.data = out ++ List.drop c2region.dataSizeInput c2region.data ∧
        r1.buildDataCount = c2region.buildDataCount + 1) ∧
    (∀ r1, PurgMemBuildData false c2region = (r1, false) →
      r1.buildDataCount = c2region.buildDataCount ∧
      List.drop c2region.dataSizeInput r1.data =
        List.drop c2region.dataSizeInput c2region.data)) := by
  have hlen : ∀ f ∈ c2region.builder, ∀ l out, f l = some out → out.length = l.length := by
    intro f hf l out hfl
    rw [show c2region.builder = [c2fn] from rfl, List.mem_singleton] at hf
    subst hf
    rw [show c2fn l = some l from rfl, Option.some_inj] at hfl
    rw [← hfl]
  have hn : c2region.dataSizeInput ≤ c2region.data.length := by
    rw [show c2region.dataSizeInput = 1 from rfl,
      show c2region.data = 7 :: 9 :: List.replicate 4094 5 from rfl]
    simp only [List.length_cons, List.length_replicate]
    omega
  exact ⟨⟨hlen, hn⟩, c2_purgMemBuildData_spec false c2region hlen hn⟩

/-- C2, counterexample to the claim as stated: the rebuild does not zero the
whole mapped range — after a successful rebuild of `c2region` byte 1 still
holds `9`, whereas the chain applied to a fully zeroed mapped range leaves
`0` there. -/
theorem c2_counterexample :
    (PurgMemBuildData false c2region).2 = true ∧
    List.get? (PurgMemBuildData false c2region).1.data 1 = some 9 ∧
    List.get? (PurgMemBuilderBuildAll c2region.builder (List.replicate c2region.data.length 0)
      c2region.dataSizeInput).1 1 = some 0 ∧
    (9 : Nat) ≠ 0 := by
  have hlen4096 : c2region.data.length = 4096 := by
    rw [show c2region.data = 7 :: 9 :: List.replicate 4094 5 from rfl]
    simp only [List.length_cons, List.length_replicate]
  have hms : MemsetZero c2region.data c2region.dataSizeInput =
      0 :: 9 :: List.replicate 4094 5 := by
    unfold MemsetZero
    rw [show c2region.dataSizeInput = 1 from rfl, hlen4096,
      show c2region.data = 7 :: 9 :: List.replicate 4094 5 from rfl]
    rfl
  have hba : PurgMemBuilderBuildAll c2region.builder (0 :: 9 :: List.replicate 4094 5)
      c2region.dataSizeInput = (0 :: 9 :: List.replicate 4094 5, true) := by
    rw [show c2region.builder = [c2fn] from rfl, show c2region.dataSizeInput = 1 from rfl]
    rfl
  refine ⟨?_, ?_, ?_, by decide⟩
  · rw [purgMemBuildData_snd, hms, hba]
  · rw [purgMemBuildData_data, hms, hba]
    rfl
  · rw [hlen4096]
    rfl

/-- C4: `isPurged` returns `true` whenever `buildCount = 0` regardless of any
UXPT state; and on a region whose (supported, non-null, in-range) table is
`u`, with `buildCount > 0` it returns `true` exactly when some covered
descriptor lacks the present bit. -/
theorem c4_isPurged_characterisation :
    (∀ (sup : Bool) (r : PurgMem), r.buildDataCount = 0 → IsPurged sup r = true) ∧
    (∀ (r : PurgMem) (u : UxPageTableStruct), r.uxPageTable = some u →
      ¬ UptOutRange u (r.dataPtr.getD 0) r.dataSizeInput →
      (IsPurged true r = true ↔ (r.buildDataCount = 0 ∨
        ∃ off ∈ UptOffsets (r.dataPtr.getD 0) r.dataSizeInput,
          IsUxptePresent (u.uxpte (GetIndexInUxpte u.dataAddr off)) = false))) := by
  constructor
  · intro sup r h
    unfold IsPurged
    rw [h]
    simp
  · intro r u hu hr
    by_cases hc : r.buildDataCount = 0
    · simp only [IsPurged, hc]
      simp [hc]
    · unfold IsPurged
      rw [if_neg (by simpa using hc)]
      rw [hu, uxpteIsPresent_eq u _ _ hr]
      constructor
      · intro hnall
        right
        have hallf : ¬ ((UptOffsets (r.dataPtr.getD 0) r.dataSizeInput).all
            (fun off => IsPresentAt u off) = true) := by
          intro hall
          rw [hall] at hnall
          simp at hnall
        rw [List.all_eq_true] at hallf
        push_neg at hallf
        obtain ⟨off, hoff, hne⟩ := hallf
        refine ⟨off, hoff, ?_⟩
        cases hb : IsPresentAt u off with
        | false => exact hb
        | true => exact absurd hb hne
      · intro hdisj
        rcases hdisj with hc0 | ⟨off, hoff, hfalse⟩
        · exact absurd hc0 hc
        · cases hall : (UptOffsets (r.dataPtr.getD 0) r.dataSizeInput).all
              (fun off => IsPresentAt u off) with
          | false => simp
          | true =>
            have := List.all_eq_true.1 hall off hoff
            rw [show IsPresentAt u off =
              IsUxptePresent (u.uxpte (GetIndexInUxpte u.dataAddr off)) from rfl] at this
            rw [this] at hfalse
            simp at hfalse

/-- C4, witness: a built (`buildCount = 1`) one-page region whose only
descriptor is `0` (not present) is purged. -/
theorem c4_isPurged_characterisation_witness :
    (c4region.uxPageTable = some c4table ∧
      ¬ UptOutRange c4table (c4region.dataPtr.getD 0) c4region.dataSizeInput) ∧
    (IsPurged true c4region = true ↔ (c4region.buildDataCount = 0 ∨
      ∃ off ∈ UptOffsets (c4region.dataPtr.getD 0) c4region.dataSizeInput,
        IsUxptePresent (c4table.uxpte (GetIndexInUxpte c4table.dataAddr off)) = false)) :=
  ⟨⟨rfl, by decide⟩, c4_isPurged_characterisation.2 c4region c4table rfl (by decide)⟩

/-- C6: with the capability probe off, `UxpteIsPresent` is constantly `true`;
`beginRead` on a never-built region still performs exactly one build (because
`buildCount = 0`) and returns holding the read lock with `buildCount = 1`,
and every later `beginRead` takes the fast path, returning `true` without
rebuilding and leaving the region unchanged except for the lock. -/
theorem c6_capability_off_beginRead :
    (∀ (upt : Option UxPageTableStruct) (addr len : Nat),
      UxpteIsPresent false upt addr len = true) ∧
    (∀ (r : PurgMem) (fuel : Nat), IsPurgMemPtrValid r = true → r.buildDataCount = 0 →
      (PurgMemBuilderBuildAll r.builder (MemsetZero r.data r.dataSizeInput)
        r.dataSizeInput).2 = true →
      PurgMemBeginRead false (fuel + 2) r =
        some
          ({ r with
              rwlock := LockSt.rd,
              data := (PurgMemBuilderBuildAll r.builder (MemsetZero r.data r.dataSizeInput)
                r.dataSizeInput).1,
              buildDataCount := 1 }, true)) ∧
    (∀ (r : PurgMem) (fuel : Nat), IsPurgMemPtrValid r = true → 0 < r.buildDataCount →
      PurgMemBeginRead false (fuel + 1) r = some ({ r with rwlock := LockSt.rd }, true)) := by
  refine ⟨fun upt addr len => rfl, ?_, ?_⟩
  · intro r fuel hv hc hb
    rw [purgMemBeginRead_valid_eq false (fuel + 2) r hv,
      show UxpteGet false r.uxPageTable (r.dataPtr.getD 0) r.dataSizeInput =
        r.uxPageTable from rfl,
      show { r with uxPageTable := r.uxPageTable } = r from rfl]
    have hp : IsPurged false r = true := by
      unfold IsPurged
      rw [hc]
      simp
    rw [beginReadLoop_unfold, tryBeginRead_purged false r hp]
    simp only [reduceCtorEq, if_false]
    have hpf : IsPurged false ({ r with rwlock := LockSt.free }) = true := hp
    rw [beginReadBuildData_purged false _ hpf]
    have hsnd : (PurgMemBuildData false { r with rwlock := LockSt.wr }).2 = true := by
      rw [purgMemBuildData_snd]
      exact hb
    simp only [hsnd, if_true]
    have hB : (PurgMemBuildData false { r with rwlock := LockSt.wr }).1 =
        { r with
            rwlock := LockSt.wr,
            data := (PurgMemBuilderBuildAll r.builder (MemsetZero r.data r.dataSizeInput)
              r.dataSizeInput).1,
            buildDataCount := 1 } := by
      rw [purgMemBuildData_shape]
      simp only [hb, if_true]
      rw [hc]
      rfl
    rw [hB]
    have hns : IsPurged false
        ({ r with
            rwlock := LockSt.free,
            data := (PurgMemBuilderBuildAll r.builder (MemsetZero r.data r.dataSizeInput)
              r.dataSizeInput).1,
            buildDataCount := 1 }) = false := by
      unfold IsPurged
      simp [UxpteIsPresent]
    rw [beginReadLoop_unfold, tryBeginRead_not_purged false _ hns]
    simp
  · intro r fuel hv hc
    rw [purgMemBeginRead_valid_eq false (fuel + 1) r hv,
      show UxpteGet false r.uxPageTable (r.dataPtr.getD 0) r.dataSizeInput =
        r.uxPageTable from rfl,
      show { r with uxPageTable := r.uxPageTable } = r from rfl]
    have hns : IsPurged false r = false := by
      unfold IsPurged
      rw [if_neg (by simp; omega)]
      simp [UxpteIsPresent]
    rw [beginReadLoop_unfold, tryBeginRead_not_purged false r hns]
    simp

/-- C6, witness: the capability-off behaviour at a concrete two-byte region:
one build on the first read, fast path on the second. -/
theorem c6_capability_off_beginRead_witness :
    (IsPurgMemPtrValid c6region = true ∧ c6region.buildDataCount = 0 ∧
      (PurgMemBuilderBuildAll c6region.builder
        (MemsetZero c6region.data c6region.dataSizeInput) c6region.dataSizeInput).2 = true) ∧
    PurgMemBeginRead false 2 c6region =
      some
        ({ c6region with
            rwlock := LockSt.rd,
            data := (PurgMemBuilderBuildAll c6region.builder
              (MemsetZero c6region.data c6region.dataSizeInput) c6region.dataSizeInput).1,
            buildDataCount := 1 }, true) ∧
    (∀ (r : PurgMem), IsPurgMemPtrValid r = true → 0 < r.buildDataCount →
      PurgMemBeginRead false 1 r = some ({ r with rwlock := LockSt.rd }, true)) :=
  ⟨⟨by decide, rfl, by decide⟩,
    c6_capability_off_beginRead.2.1 c6region 0 (by decide) rfl (by decide),
    fun r hv hc => c6_capability_off_beginRead.2.2 r 0 hv hc⟩

/-- C7: every UXPT operation on a non-null table first page-rounds the range;
if the rounded range is not contained in the table's data range the
operation returns `PM_UXPT_OUT_RANGE` and no descriptor is modified;
otherwise it is applied to the descriptor of every page of the rounded range
(`get` adds through `UxpteAdd`, `put` subtracts, `clear` zeroes, and
`isPresent` reports `PM_OK` exactly when every covered descriptor is
present), leaving all other descriptors untouched. -/
theorem c7_uxpteOps_characterisation :
    (∀ (u : UxPageTableStruct) (addr len : Nat) (op : UxpteOp), UptOutRange u addr len →
      UxpteOps (some u) addr len op = (some u, .PM_UXPT_OUT_RANGE)) ∧
    (∀ (u : UxPageTableStruct) (addr len : Nat), ¬ UptOutRange u addr len →
      ∃ u1, UxpteOps (some u) addr len .UPT_GET = (some u1, .PM_OK) ∧
        u1.dataAddr = u.dataAddr ∧ u1.dataSize = u.dataSize ∧
        (∀ off ∈ UptOffsets addr len, u1.uxpte (GetIndexInUxpte u.dataAddr off) =
          (UxpteAdd (u.uxpte (GetIndexInUxpte u.dataAddr off)) UXPTE_REFCNT_ONE).1) ∧
        (∀ i, i ∉ (UptOffsets addr len).map (GetIndexInUxpte u.dataAddr) →
          u1.uxpte i = u.uxpte i)) ∧
    (∀ (u : UxPageTableStruct) (addr len : Nat), ¬ UptOutRange u addr len →
      ∃ u1, UxpteOps (some u) addr len .UPT_PUT = (some u1, .PM_OK) ∧
        u1.dataAddr = u.dataAddr ∧ u1.dataSize = u.dataSize ∧
        (∀ off ∈ UptOffsets addr len, u1.uxpte (GetIndexInUxpte u.dataAddr off) =
          UxpteSub (u.uxpte (GetIndexInUxpte u.dataAddr off)) UXPTE_REFCNT_ONE) ∧
        (∀ i, i ∉ (UptOffsets addr len).map (GetIndexInUxpte u.dataAddr) →
          u1.uxpte i = u.uxpte i)) ∧
    (∀ (u : UxPageTableStruct) (addr len : Nat), ¬ UptOutRange u addr len →
      ∃ u1, UxpteOps (some u) addr len .UPT_CLEAR = (some u1, .PM_OK) ∧
        u1.dataAddr = u.dataAddr ∧ u1.dataSize = u.dataSize ∧
        (∀ off ∈ UptOffsets addr len, u1.uxpte (GetIndexInUxpte u.dataAddr off) = 0) ∧
        (∀ i, i ∉ (UptOffsets addr len).map (GetIndexInUxpte u.dataAddr) →
          u1.uxpte i = u.uxpte i)) ∧
    (∀ (u : UxPageTableStruct) (addr len : Nat), ¬ UptOutRange u addr len →
      (UxpteOps (some u) addr len .UPT_IS_PRESENT).1 = some u ∧
        ((UxpteOps (some u) addr len .UPT_IS_PRESENT).2 = .PM_OK ↔
          ∀ off ∈ UptOffsets addr len,
            IsUxptePresent (u.uxpte (GetIndexInUxpte u.dataAddr off)) = true)) := by
  refine ⟨fun u addr len op h => uxpteOps_outRange_eq u addr len op h, ?_, ?_, ?_, ?_⟩
  · intro u addr len h
    refine ⟨(UptOffsets addr len).foldl (PteStep GPteAdd) u, uxpteOps_get_eq u addr len h,
      foldl_pteStep_dataAddr _ _ _, foldl_pteStep_dataSize _ _ _, ?_, ?_⟩
    · intro off hoff
      rw [foldl_pteStep_uxpte GPteAdd _ u (uptOffsets_index_nodup u addr len h),
        if_pos (List.mem_map_of_mem _ hoff)]
      rfl
    · intro i hi
      rw [foldl_pteStep_uxpte GPteAdd _ u (uptOffsets_index_nodup u addr len h), if_neg hi]
  · intro u addr len h
    refine ⟨(UptOffsets addr len).foldl (PteStep GPteSub) u, uxpteOps_put_eq u addr len h,
      foldl_pteStep_dataAddr _ _ _, foldl_pteStep_dataSize _ _ _, ?_, ?_⟩
    · intro off hoff
      rw [foldl_pteStep_uxpte GPteSub _ u (uptOffsets_index_nodup u addr len h),
        if_pos (List.mem_map_of_mem _ hoff)]
      rfl
    · intro i hi
      rw [foldl_pteStep_uxpte GPteSub _ u (uptOffsets_index_nodup u addr len h), if_neg hi]
  · intro u addr len h
    refine ⟨(UptOffsets addr len).foldl (PteStep UxpteClearPte) u,
      uxpteOps_clear_eq u addr len h,
      foldl_pteStep_dataAddr _ _ _, foldl_pteStep_dataSize _ _ _, ?_, ?_⟩
    · intro off hoff
      rw [foldl_pteStep_uxpte UxpteClearPte _ u (uptOffsets_index_nodup u addr len h),
        if_pos (List.mem_map_of_mem _ hoff)]
      rfl
    · intro i hi
      rw [foldl_pteStep_uxpte UxpteClearPte _ u (uptOffsets_index_nodup u addr len h),
        if_neg hi]
  · intro u addr len h
    rw [uxpteOps_present_eq u addr len h]
    refine ⟨rfl, ?_⟩
    by_cases hall : (UptOffsets addr len).all (fun off => IsPresentAt u off) = true
    · rw [hall]
      simp only [if_true]
      constructor
      · intro _ off hoff
        exact List.all_eq_true.1 hall off hoff
      · intro _
        trivial
    · rw [Bool.not_eq_true] at hall
      rw [hall]
      simp only [Bool.false_eq_true, if_false]
      constructor
      · intro hcontra
        exact absurd hcontra (by simp)
      · intro hforall
        exfalso
        have : (UptOffsets addr len).all (fun off => IsPresentAt u off) = true :=
          List.all_eq_true.2 (fun off hoff => hforall off hoff)
        rw [this] at hall
        simp at hall

/-- C7, witness: the `get` branch of the characterisation at a one-page table
with an in-range unaligned request. -/
theorem c7_uxpteOps_characterisation_witness :
    (¬ UptOutRange c7table 4196 100) ∧
    (∃ u1, UxpteOps (some c7table) 4196 100 .UPT_GET = (some u1, .PM_OK) ∧
      u1.dataAddr = c7table.dataAddr ∧ u1.dataSize = c7table.dataSize ∧
      (∀ off ∈ UptOffsets 4196 100, u1.uxpte (GetIndexInUxpte c7table.dataAddr off) =
        (UxpteAdd (c7table.uxpte (GetIndexInUxpte c7table.dataAddr off)) UXPTE_REFCNT_ONE).1) ∧
      (∀ i, i ∉ (UptOffsets 4196 100).map (GetIndexInUxpte c7table.dataAddr) →
        u1.uxpte i = c7table.uxpte i)) :=
  ⟨by decide, c7_uxpteOps_characterisation.2.1 c7table 4196 100 (by decide)⟩

/-- C8: `appendModify` applies the function to the buffer before linking a
builder node: when the function succeeds but creating/appending the node
fails, the call returns `false` with the buffer already modified and the
chain unchanged — a `false` return does not mean the data is unchanged. -/
theorem c8_appendModify_applies_before_link (sup : Bool) (r : PurgMem) (f : BuilderFn)
    (out : List Nat) (hf : f (List.take r.dataSizeInput r.data) = some out) :
    PurgMemAppendModify sup r (some f) false =
      ({ r with data := out ++ List.drop r.dataSizeInput r.data }, false) ∧
    (PurgMemAppendModify sup r (some f) false).1.builder = r.builder := by
  have hstep : PurgMemAppendModify sup r (some f) false =
      (match f (List.take r.dataSizeInput r.data) with
      | none => (r, false)
      | some o => ({ r with data := o ++ List.drop r.dataSizeInput r.data }, false)) := rfl
  have hmain : PurgMemAppendModify sup r (some f) false =
      ({ r with data := out ++ List.drop r.dataSizeInput r.data }, false) := by
    rw [hstep, hf]
  exact ⟨hmain, by rw [hmain]⟩

/-- C8, witness: a concrete in-place increment whose node allocation fails:
the data is modified, the chain (empty) is unchanged, and `false` returns. -/
theorem c8_appendModify_applies_before_link_witness :
    (c8fn (List.take c8region.dataSizeInput c8region.data) = some [2, 3]) ∧
    (PurgMemAppendModify true c8region (some c8fn) false =
      ({ c8region with data := [2, 3] ++ List.drop c8region.dataSizeInput c8region.data },
        false) ∧
      (PurgMemAppendModify true c8region (some c8fn) false).1.builder = c8region.builder) ∧
    [2, 3] ++ List.drop c8region.dataSizeInput c8region.data ≠ c8region.data :=
  ⟨rfl, c8_appendModify_applies_before_link true c8region c8fn [2, 3] rfl, by decide⟩

/-- C10: `destroy(null)` returns `true`; on a region, the call returns `true`
and frees the structure (result `none`) exactly when every applicable
teardown step succeeded (builder-chain destroy when a chain exists, data
unmap when mapped, UXPT unmap when present and the capability is on); on
failure the structure survives with precisely the pointers of the succeeded
steps set to NULL (so a repeated destroy does not re-release them) and all
other fields intact. -/
theorem c10_destroy_characterisation :
    (∀ (sup : Bool) (env : DestroyEnv), PurgMemDestroy sup env none = (none, true)) ∧
    (∀ (sup : Bool) (env : DestroyEnv) (r : PurgMem),
      ((PurgMemDestroy sup env (some r)).2 = true ↔
        ((r.builder = [] ∨ env.builderDestroyOk = true) ∧
          (r.dataPtr = none ∨ env.unmapDataOk = true) ∧
          (r.uxPageTable = none ∨ sup = false ∨ env.unmapUxptOk = true)))) ∧
    (∀ (sup : Bool) (env : DestroyEnv) (r : PurgMem),
      ((PurgMemDestroy sup env (some r)).2 = true ↔
        (PurgMemDestroy sup env (some r)).1 = none)) ∧
    (∀ (sup : Bool) (env : DestroyEnv) (r r1 : PurgMem),
      PurgMemDestroy sup env (some r) = (some r1, false) →
        (r1.builder = [] ↔ (r.builder = [] ∨ env.builderDestroyOk = true)) ∧
        (r1.dataPtr = none ↔ (r.dataPtr = none ∨ env.unmapDataOk = true)) ∧
        (r1.uxPageTable = none ↔
          (r.uxPageTable = none ∨ sup = false ∨ env.unmapUxptOk = true)) ∧
        r1.data = r.data ∧ r1.dataSizeInput = r.dataSizeInput ∧
        r1.buildDataCount = r.buildDataCount ∧ r1.rwlock = r.rwlock) := by
  refine ⟨fun sup env => rfl, ?_, ?_, ?_⟩
  · intro sup env r
    obtain ⟨b1, b2, b3⟩ := env
    obtain ⟨dp, dat, n, bld, upt, lk, cnt⟩ := r
    cases bld <;> cases dp <;> cases upt <;> cases sup <;> cases b1 <;> cases b2 <;>
      cases b3 <;> simp_all [PurgMemDestroy]
  · intro sup env r
    obtain ⟨b1, b2, b3⟩ := env
    obtain ⟨dp, dat, n, bld, upt, lk, cnt⟩ := r
    cases bld <;> cases dp <;> cases upt <;> cases sup <;> cases b1 <;> cases b2 <;>
      cases b3 <;> simp_all [PurgMemDestroy]
  · intro sup env r r1 h
    obtain ⟨b1, b2, b3⟩ := env
    obtain ⟨dp, dat, n, bld, upt, lk, cnt⟩ := r
    cases bld <;> cases dp <;> cases upt <;> cases sup <;> cases b1 <;> cases b2 <;>
      cases b3 <;> simp_all [PurgMemDestroy] <;> subst h <;> simp

/-- C10, witness: a failed builder-chain destroy with a successful data unmap
leaves the region alive with only `dataPtr` nulled. -/
theorem c10_destroy_characterisation_witness :
    (PurgMemDestroy true c10env (some c10region) = (some c10after, false)) ∧
    ((c10after.builder = [] ↔
        (c10region.builder = [] ∨ c10env.builderDestroyOk = true)) ∧
      (c10after.dataPtr = none ↔ (c10region.dataPtr = none ∨ c10env.unmapDataOk = true)) ∧
      (c10after.uxPageTable = none ↔
        (c10region.uxPageTable = none ∨ true = false ∨ c10env.unmapUxptOk = true)) ∧
      c10after.data = c10region.data ∧ c10after.dataSizeInput = c10region.dataSizeInput ∧
      c10after.buildDataCount = c10region.buildDataCount ∧
      c10after.rwlock = c10region.rwlock) :=
  ⟨rfl, c10_destroy_characterisation.2.2.2 true c10env c10region c10after rfl⟩

theorem roundUp_ge (v a : Nat) : v ≤ RoundUp v a := by
  unfold RoundUp
  split
  · exact le_refl v
  · split
    · exact le_refl v
    · next h0 =>
      have ha : 0 < a := Nat.pos_of_ne_zero h0
      have hd := Nat.div_add_mod (v + a - 1) a
      have hm : (v + a - 1) % a < a := Nat.mod_lt _ ha
      rw [Nat.mul_comm]
      omega

/-- C5: `create(len, f, p)` followed by a `beginRead` yields content equal to
`f` applied to a `len`-byte zero buffer, with `buildCount = 1` after that
first read session — the application of `f` at create time does not count as
a build, so the first session rebuilds.  (`addr` is the page-aligned address
the data mmap returns; `pte0` is the kernel pte state the table's `init`
clears.) -/
theorem c5_create_beginRead_content (addr len fuel : Nat) (pte0 : Nat → Nat)
    (f : BuilderFn) (out : List Nat)
    (hlen0 : 0 < len)
    (hflen : ∀ l o, f l = some o → o.length = l.length)
    (hf : f (List.replicate len 0) = some out)
    (ha : RoundDown addr PAGE_SIZE = addr)
    (hru1 : RoundUp ((addr + len) % U64) PAGE_SIZE = addr + RoundUp len PAGE_SIZE)
    (hru2 : RoundUp ((addr + RoundUp len PAGE_SIZE) % U64) PAGE_SIZE =
      addr + RoundUp len PAGE_SIZE)
    (hlt : addr + RoundUp len PAGE_SIZE < U64) :
    ∃ r0 r1, PurgMemCreate true addr pte0 len (some f) true = some r0 ∧
      PurgMemBeginRead true (fuel + 2) r0 = some (r1, true) ∧
      List.take len r1.data = out ∧ r1.buildDataCount = 1 := by
  set size := RoundUp len PAGE_SIZE with hsize
  have hsz : len ≤ size := roundUp_ge len PAGE_SIZE
  have hout : out.length = len := by rw [hflen _ _ hf, List.length_replicate]
  have hmod : (addr + size) % U64 = addr + size := Nat.mod_eq_of_lt hlt
  have hstart : UptStart addr = addr := by unfold UptStart; exact ha
  have hend1 : UptEnd addr len = addr + size := by unfold UptEnd; exact hru1
  have hend2 : UptEnd addr size = addr + size := by unfold UptEnd; exact hru2
  have hrange_len : ∀ w : UxPageTableStruct, w.dataAddr = addr → w.dataSize = size →
      ¬ UptOutRange w addr len := by
    intro w h1 h2
    unfold UptOutRange
    rw [h1, h2, hstart, hend1, hmod]
    omega
  have hrange_size : ∀ w : UxPageTableStruct, w.dataAddr = addr → w.dataSize = size →
      ¬ UptOutRange w addr size := by
    intro w h1 h2
    unfold UptOutRange
    rw [h1, h2, hstart, hend2, hmod]
    omega
  have hoffs_eq : UptOffsets addr size = UptOffsets addr len := by
    unfold UptOffsets
    rw [hend1, hend2]
  -- the table after init's clear
  set upt0 : UxPageTableStruct := { dataAddr := addr, dataSize := size, uxpte := pte0 }
    with hupt0
  set uC := (UptOffsets addr size).foldl (PteStep UxpteClearPte) upt0 with huC
  have hdaC : uC.dataAddr = addr := foldl_pteStep_dataAddr _ _ _
  have hdsC : uC.dataSize = size := foldl_pteStep_dataSize _ _ _
  have hclear : UxpteClear true (some upt0) addr size = some uC :=
    uxpteClear_eq upt0 addr size (hrange_size upt0 rfl rfl)
  -- the region create returns
  set data0 : List Nat := out ++ List.replicate (size - len) 0 with hdata0
  set r0 : PurgMem :=
    { dataPtr := some addr
      data := data0
      dataSizeInput := len
      builder := [f]
      uxPageTable := some uC
      rwlock := LockSt.free
      buildDataCount := 0 } with hr0
  have hne : ¬ (len = 0) := Nat.pos_iff_ne_zero.1 hlen0
  have htake0 : List.take len (List.replicate size (0 : Nat)) = List.replicate len 0 := by
    rw [List.take_replicate, Nat.min_eq_left hsz]
  have hdrop0 : List.drop len (List.replicate size (0 : Nat)) =
      List.replicate (size - len) 0 := by
    rw [List.drop_replicate]
  have happ : PurgMemAppendModify true
      { dataPtr := some addr
        data := List.replicate size 0
        dataSizeInput := len
        builder := []
        uxPageTable := some uC
        rwlock := LockSt.free
        buildDataCount := 0 } (some f) true = (r0, true) := by
    have hstep : PurgMemAppendModify true
        { dataPtr := some addr
          data := List.replicate size 0
          dataSizeInput := len
          builder := []
          uxPageTable := some uC
          rwlock := LockSt.free
          buildDataCount := 0 } (some f) true =
        (match f (List.take len (List.replicate size 0)) with
        | none =>
          ({ dataPtr := some addr
             data := List.replicate size 0
             dataSizeInput := len
             builder := []
             uxPageTable := some uC
             rwlock := LockSt.free
             buildDataCount := 0 }, false)
        | some o =>
          ({ dataPtr := some addr
             data := o ++ List.drop len (List.replicate size 0)
             dataSizeInput := len
             builder := [f]
             uxPageTable := some uC
             rwlock := LockSt.free
             buildDataCount := 0 }, true)) := rfl
    rw [hstep, htake0, hf, hdrop0]
  have hcs : PurgMemCreate true addr pte0 len (some f) true =
      (if len = 0 then none
      else
        (let res := PurgMemAppendModify true
          { dataPtr := some addr
            data := List.replicate (RoundUp len PAGE_SIZE) 0
            dataSizeInput := len
            builder := []
            uxPageTable := UxpteClear true
              (some { dataAddr := addr, dataSize := RoundUp len PAGE_SIZE, uxpte := pte0 })
              addr (RoundUp len PAGE_SIZE)
            rwlock := LockSt.free
            buildDataCount := 0 } (some f) true
        if res.2 then some res.1 else none)) := rfl
  have hcreate : PurgMemCreate true addr pte0 len (some f) true = some r0 := by
    rw [hcs, if_neg hne]
    rw [show UxpteClear true
        (some { dataAddr := addr, dataSize := RoundUp len PAGE_SIZE, uxpte := pte0 })
        addr (RoundUp len PAGE_SIZE) = some uC from hclear]
    rw [happ]
    rfl
  -- pin
  set uD := (UptOffsets addr len).foldl (PteStep GPteAdd) uC with huD
  have hdaD : uD.dataAddr = addr := by rw [huD, foldl_pteStep_dataAddr, hdaC]
  have hdsD : uD.dataSize = size := by rw [huD, foldl_pteStep_dataSize, hdsC]
  have hpin : UxpteGet true r0.uxPageTable (r0.dataPtr.getD 0) r0.dataSizeInput = some uD := by
    show UxpteGet true (some uC) addr len = some uD
    exact uxpteGet_eq uC addr len (hrange_len uC hdaC hdsC)
  set uE := (UptOffsets addr len).foldl (PteStep MarkPte) uD with huE
  have hdaE : uE.dataAddr = addr := by rw [huE, foldl_pteStep_dataAddr, hdaD]
  have hdsE : uE.dataSize = size := by rw [huE, foldl_pteStep_dataSize, hdsD]
  set r0p : PurgMem := { r0 with uxPageTable := some uD } with hr0p
  have hp : IsPurged true r0p = true := rfl
  -- the rebuild inside the loop
  have hdlen : data0.length = size := by
    rw [hdata0, List.length_append, hout, List.length_replicate]
    omega
  have hms : MemsetZero data0 len =
      List.replicate len 0 ++ List.replicate (size - len) 0 := by
    unfold MemsetZero
    rw [hdlen, Nat.min_eq_left hsz, hdata0]
    have := List.drop_left out (List.replicate (size - len) (0 : Nat))
    rw [hout] at this
    rw [this]
  have htake1 : List.take len (List.replicate len (0 : Nat) ++
      List.replicate (size - len) 0) = List.replicate len 0 := by
    have := List.take_left (List.replicate len (0 : Nat)) (List.replicate (size - len) 0)
    rw [List.length_replicate] at this
    exact this
  have hdrop1 : List.drop len (List.replicate len (0 : Nat) ++
      List.replicate (size - len) 0) = List.replicate (size - len) 0 := by
    have := List.drop_left (List.replicate len (0 : Nat)) (List.replicate (size - len) 0)
    rw [List.length_replicate] at this
    exact this
  have hba : PurgMemBuilderBuildAll [f]
      (List.replicate len 0 ++ List.replicate (size - len) 0) len = (data0, true) := by
    have hstep : PurgMemBuilderBuildAll [f]
        (List.replicate len 0 ++ List.replicate (size - len) 0) len =
        (match f (List.take len (List.replicate len 0 ++ List.replicate (size - len) 0)) with
        | none => (List.replicate len 0 ++ List.replicate (size - len) 0, false)
        | some o =>
          (o ++ List.drop len (List.replicate len 0 ++ List.replicate (size - len) 0),
            true)) := rfl
    rw [hstep, htake1, hf, hdrop1]
  have hsnd : (PurgMemBuildData true { r0p with rwlock := LockSt.wr }).2 = true := by
    rw [purgMemBuildData_snd]
    show (PurgMemBuilderBuildAll [f] (MemsetZero data0 len) len).2 = true
    rw [hms, hba]
  have hBupt : (PurgMemBuildData true { r0p with rwlock := LockSt.wr }).1.uxPageTable =
      some uE := by
    rw [purgMemBuildData_uxPageTable]
    show KernelMarkPresent true (some uD) addr len = some uE
    exact kernelMarkPresent_eq uD addr len (hrange_len uD hdaD hdsD)
  have hBdata : (PurgMemBuildData true { r0p with rwlock := LockSt.wr }).1.data = data0 := by
    rw [purgMemBuildData_data]
    show (PurgMemBuilderBuildAll [f] (MemsetZero data0 len) len).1 = data0
    rw [hms, hba]
  have hBcnt : (PurgMemBuildData true { r0p with rwlock := LockSt.wr }).1.buildDataCount
      = 1 := by
    rw [purgMemBuildData_count]
    show (if (PurgMemBuilderBuildAll [f] (MemsetZero data0 len) len).2 then 0 + 1 else 0) = 1
    rw [hms, hba]
    rfl
  have hBdp : (PurgMemBuildData true { r0p with rwlock := LockSt.wr }).1.dataPtr =
      some addr := by
    rw [purgMemBuildData_dataPtr]
  have hBn : (PurgMemBuildData true { r0p with rwlock := LockSt.wr }).1.dataSizeInput
      = len := by
    rw [purgMemBuildData_dataSizeInput]
  set B1 := (PurgMemBuildData true { r0p with rwlock := LockSt.wr }).1 with hB1
  -- after the rebuild, every covered page is present
  have hpres : UxpteIsPresent true (some uE) addr len = true := by
    rw [uxpteIsPresent_eq uE addr len (hrange_len uE hdaE hdsE)]
    have heq : ∀ off ∈ UptOffsets addr len, IsPresentAt uE off = true := by
      intro off hoff
      have hall := all_present_after_mark uD addr len (hrange_len uD hdaD hdsD)
      rw [List.all_eq_true] at hall
      exact hall off hoff
    exact List.all_eq_true.2 heq
  have hns : IsPurged true ({ B1 with rwlock := LockSt.free }) = false := by
    unfold IsPurged
    have h1 : ({ B1 with rwlock := LockSt.free }).buildDataCount = 1 := hBcnt
    have h2 : ({ B1 with rwlock := LockSt.free }).uxPageTable = some uE := hBupt
    have h3 : ({ B1 with rwlock := LockSt.free }).dataPtr = some addr := hBdp
    have h4 : ({ B1 with rwlock := LockSt.free }).dataSizeInput = len := hBn
    rw [h1, h2, h3, h4]
    simp only [Option.getD_some, hpres]
    rfl
  -- run beginRead
  have hv0 : IsPurgMemPtrValid r0 = true := rfl
  have hread : PurgMemBeginRead true (fuel + 2) r0 =
      some ({ B1 with rwlock := LockSt.rd }, true) := by
    rw [purgMemBeginRead_valid_eq true (fuel + 2) r0 hv0, hpin]
    rw [show fuel + 2 = (fuel + 1) + 1 from rfl, beginReadLoop_unfold]
    rw [show ({ r0 with uxPageTable := some uD } : PurgMem) = r0p from rfl]
    rw [tryBeginRead_purged true r0p hp]
    simp only [reduceCtorEq, if_false]
    have hpf : IsPurged true ({ r0p with rwlock := LockSt.free }) = true := hp
    rw [beginReadBuildData_purged true _ hpf]
    simp only [hsnd, if_true, reduceCtorEq]
    rw [beginReadLoop_unfold]
    rw [tryBeginRead_not_purged true _ hns]
    simp
  refine ⟨r0, { B1 with rwlock := LockSt.rd }, hcreate, hread, ?_, ?_⟩
  · have hd : ({ B1 with rwlock := LockSt.rd }).data = data0 := hBdata
    rw [hd, hdata0]
    have := List.take_left out (List.replicate (size - len) (0 : Nat))
    rw [hout] at this
    exact this
  · exact hBcnt

/-- C5, witness: a 16-byte region at page-aligned address `4096` built by a
constant `0x5A = 90` writer: the first read session rebuilds once and the
content is `f` of a zero buffer. -/
theorem c5_create_beginRead_content_witness :
    (0 < 16 ∧ c5fn (List.replicate 16 0) = some (List.replicate 16 90) ∧
      RoundDown 4096 PAGE_SIZE = 4096) ∧
    (∃ r0 r1, PurgMemCreate true 4096 (fun _ => 7) 16 (some c5fn) true = some r0 ∧
      PurgMemBeginRead true (0 + 2) r0 = some (r1, true) ∧
      List.take 16 r1.data = List.replicate 16 90 ∧ r1.buildDataCount = 1) :=
  ⟨⟨by decide, rfl, by decide⟩,
    c5_create_beginRead_content 4096 16 0 (fun _ => 7) c5fn (List.replicate 16 90)
      (by decide)
      (fun l o h => by
        rw [show c5fn l = some (l.map (fun _ => 90)) from rfl, Option.some_inj] at h
        rw [← h, List.length_map])
      rfl (by decide) (by decide) (by decide) (by decide)⟩
